import Mathlib

/-!
# haproxy-operator: `Backend.Model` and `Backend.AddToParser`

A shallow embedding of `apis/config/v1alpha1/backend_types.go`.

* Go pointers (`*T`) are `Option T`, a Go `error` is `Option String` (`none` is `nil`,
  `some msg` an error with message `msg`).
* `metav1.Duration` is the signed nanosecond count of `time.Duration`, an `Int`.
* The `Timeouts` map is the list of its entries in the order the `range` loop visits them.
* The external collaborators (schema validator, fragment builders declared in other
  files, serializers, the section document) are fields of explicit records.
-/

set_option maxRecDepth 100000

namespace hash

/-- The UTF-8 bytes of one character, as Go's `[]byte(text)` lays them out. -/
def utf8Char (c : Char) : List Nat :=
  let n := c.toNat
  if n < 0x80 then [n]
  else if n < 0x800 then [0xC0 + n / 64, 0x80 + n % 64]
  else if n < 0x10000 then [0xE0 + n / 4096, 0x80 + (n / 64) % 64, 0x80 + n % 64]
  else [0xF0 + n / 262144, 0x80 + (n / 4096) % 64, 0x80 + (n / 64) % 64, 0x80 + n % 64]

/-- The bytes of a string. -/
def bytesOf (s : String) : List Nat :=
  (s.data.map utf8Char).flatten

/-- Per-round left-rotation amounts of MD5 (RFC 1321). -/
def shiftTable : List Nat :=
  [7, 12, 17, 22, 7, 12, 17, 22, 7, 12, 17, 22, 7, 12, 17, 22,
   5, 9, 14, 20, 5, 9, 14, 20, 5, 9, 14, 20, 5, 9, 14, 20,
   4, 11, 16, 23, 4, 11, 16, 23, 4, 11, 16, 23, 4, 11, 16, 23,
   6, 10, 15, 21, 6, 10, 15, 21, 6, 10, 15, 21, 6, 10, 15, 21]

/-- Per-round additive constants of MD5 (RFC 1321). -/
def sineTable : List Nat :=
  [0xd76aa478, 0xe8c7b756, 0x242070db, 0xc1bdceee, 0xf57c0faf, 0x4787c62a, 0xa8304613, 0xfd469501,
   0x698098d8, 0x8b44f7af, 0xffff5bb1, 0x895cd7be, 0x6b901122, 0xfd987193, 0xa679438e, 0x49b40821,
   0xf61e2562, 0xc040b340, 0x265e5a51, 0xe9b6c7aa, 0xd62f105d, 0x02441453, 0xd8a1e681, 0xe7d3fbc8,
   0x21e1cde6, 0xc33707d6, 0xf4d50d87, 0x455a14ed, 0xa9e3e905, 0xfcefa3f8, 0x676f02d9, 0x8d2a4c8a,
   0xfffa3942, 0x8771f681, 0x6d9d6122, 0xfde5380c, 0xa4beea44, 0x4bdecfa9, 0xf6bb4b60, 0xbebfbc70,
   0x289b7ec6, 0xeaa127fa, 0xd4ef3085, 0x04881d05, 0xd9d4d039, 0xe6db99e5, 0x1fa27cf8, 0xc4ac5665,
   0xf4292244, 0x432aff97, 0xab9423a7, 0xfc93a039, 0x655b59c3, 0x8f0ccc92, 0xffeff47d, 0x85845dd1,
   0x6fa87e4f, 0xfe2ce6e0, 0xa3014314, 0x4e0811a1, 0xf7537e82, 0xbd3af235, 0x2ad7d2bb, 0xeb86d391]

/-- Truncation to an unsigned 32-bit word. -/
def word (x : Nat) : Nat := x % 4294967296

/-- Bitwise complement of a 32-bit word. -/
def compl32 (x : Nat) : Nat := 4294967295 ^^^ x

/-- Left rotation of a 32-bit word by `c` bits (`0 < c < 32`). -/
def rotl32 (x c : Nat) : Nat := word ((x <<< c) ||| (x >>> (32 - c)))

/-- MD5 padding: a `0x80` byte, zero bytes up to 56 modulo 64, then the bit length as
eight little-endian bytes. -/
def pad (msg : List Nat) : List Nat :=
  let len := msg.length
  msg ++ [0x80] ++ List.replicate ((119 - len % 64) % 64) 0
    ++ (List.range 8).map (fun i => (len * 8 / 256 ^ i) % 256)

/-- The sixteen little-endian 32-bit words of a 64-byte block. -/
def blockWords (blk : List Nat) : List Nat :=
  (List.range 16).map (fun j =>
    blk.getD (4 * j) 0 + 256 * blk.getD (4 * j + 1) 0
      + 65536 * blk.getD (4 * j + 2) 0 + 16777216 * blk.getD (4 * j + 3) 0)

/-- One of the 64 MD5 operations on the working state `(a, b, c, d)`. -/
def step (m : List Nat) (st : Nat × Nat × Nat × Nat) (i : Nat) : Nat × Nat × Nat × Nat :=
  let (a, b, c, d) := st
  let f :=
    if i < 16 then (b &&& c) ||| (compl32 b &&& d)
    else if i < 32 then (d &&& b) ||| (compl32 d &&& c)
    else if i < 48 then b ^^^ c ^^^ d
    else c ^^^ (b ||| compl32 d)
  let g :=
    if i < 16 then i
    else if i < 32 then (5 * i + 1) % 16
    else if i < 48 then (3 * i + 5) % 16
    else (7 * i) % 16
  let t := word (f + a + sineTable.getD i 0 + m.getD g 0)
  (d, word (b + rotl32 t (shiftTable.getD i 0)), b, c)

/-- Absorbing one 64-byte block into the chaining state. -/
def processBlock (st : Nat × Nat × Nat × Nat) (blk : List Nat) : Nat × Nat × Nat × Nat :=
  let (a, b, c, d) := st
  let (a2, b2, c2, d2) := (List.range 64).foldl (step (blockWords blk)) st
  (word (a + a2), word (b + b2), word (c + c2), word (d + d2))

/-- The MD5 chaining state after all blocks of the padded message. -/
def md5State (msg : List Nat) : Nat × Nat × Nat × Nat :=
  let padded := pad msg
  (List.range (padded.length / 64)).foldl
    (fun st k => processBlock st ((padded.drop (64 * k)).take 64))
    (0x67452301, 0xefcdab89, 0x98badcfe, 0x10325476)

/-- The four little-endian bytes of a 32-bit word. -/
def wordBytes (w : Nat) : List Nat :=
  [w % 256, (w / 256) % 256, (w / 65536) % 256, (w / 16777216) % 256]

/-- The 16-byte MD5 digest (`md5.Sum`). -/
def md5Sum (msg : List Nat) : List Nat :=
  let (a, b, c, d) := md5State msg
  wordBytes a ++ wordBytes b ++ wordBytes c ++ wordBytes d

/-- One lowercase hexadecimal digit. -/
def hexDigit (n : Nat) : Char :=
  ['0', '1', '2', '3', '4', '5', '6', '7', '8', '9', 'a', 'b', 'c', 'd', 'e', 'f'].getD n '0'

/-- Lowercase hexadecimal rendering of a byte string (`hex.EncodeToString`). -/
def hexEncode (bs : List Nat) : String :=
  ⟨(bs.map (fun b => [hexDigit (b / 16), hexDigit (b % 16)])).flatten⟩

/-- Modelled from the spec: `hash.GetMD5Hash` (package `pkg/hash`, not among the source
files) is the content hash of the spec, "a single deterministic one-way hash (e.g., 128-bit
digest rendered as lowercase hex) applied to cookie names": the MD5 digest of the bytes of
the text, rendered as lowercase hexadecimal. -/
def GetMD5Hash (text : String) : String :=
  hexEncode (md5Sum (bytesOf text))

end hash


/-- A Go `error`: `none` is `nil`, `some msg` is an error whose message is `msg`. -/
abbrev Error := Option String

namespace metav1

/-- The nanosecond count of a `time.Duration` (a signed 64-bit integer in Go). -/
abbrev Duration := Int

/-- Go's `Duration.Milliseconds`: `int64(d) / 1e6`, integer division truncating toward zero. -/
def Duration.Milliseconds (d : Duration) : Int := Int.tdiv d 1000000

/-- Go's `time.Second` in nanoseconds. -/
def Second : Duration := 1000000000

/-- Go's `time.Hour` in nanoseconds. -/
def Hour : Duration := 3600000000000

end metav1


/-! ## The configuration model (`client-native/v4/models`)

Only the fields that `backend_types.go` reads or writes are kept; every other field of the
external structs keeps its zero value throughout and is left out. -/

namespace models

/-- `models.ForwardforEnabledEnabled`. -/
def ForwardforEnabledEnabled : String := "enabled"

/-- `models.BackendHTTPPretendKeepaliveEnabled`. -/
def BackendHTTPPretendKeepaliveEnabled : String := "enabled"

/-- `models.RedispatchEnabledEnabled`. -/
def RedispatchEnabledEnabled : String := "enabled"

/-- `models.CookieTypeRewrite`. -/
def CookieTypeRewrite : String := "rewrite"

/-- `models.CookieTypeInsert`. -/
def CookieTypeInsert : String := "insert"

/-- `models.CookieTypePrefix`. -/
def CookieTypePrefix : String := "prefix"

/-- `models.Forwardfor`. -/
structure Forwardfor where
  Enabled : Option String := none
  Except : String := ""
  Header : String := ""
  Ifnone : Bool := false
  deriving DecidableEq, Repr

/-- `models.Redispatch`. -/
structure Redispatch where
  Enabled : Option String := none
  Interval : Int := 0
  deriving DecidableEq, Repr

/-- `models.HashType`. -/
structure HashType where
  Function : String := ""
  Method : String := ""
  Modifier : String := ""
  deriving DecidableEq, Repr

/-- `models.Balance`. -/
structure Balance where
  Algorithm : Option String := none
  deriving DecidableEq, Repr

/-- `models.Attr`. -/
structure Attr where
  Value : String := ""
  deriving DecidableEq, Repr

/-- `models.Domain`. -/
structure Domain where
  Value : String := ""
  deriving DecidableEq, Repr

/-- `models.Cookie`; `Type_` is the field `Type` of the Go struct. -/
structure Cookie where
  Attrs : List Attr := []
  Domains : List Domain := []
  Dynamic : Bool := false
  Httponly : Bool := false
  Indirect : Bool := false
  Maxidle : Int := 0
  Maxlife : Int := 0
  Name : Option String := none
  Nocache : Bool := false
  Postonly : Bool := false
  Preserve : Bool := false
  Secure : Bool := false
  Type_ : String := ""
  deriving DecidableEq, Repr

/-- `models.Errorfile`. -/
structure Errorfile where
  Code : Int := 0
  File : String := ""
  deriving DecidableEq, Repr

/-- `models.Backend`; the zero value `models.Backend{}` is `{}`. -/
structure Backend where
  Name : String := ""
  Mode : String := ""
  CheckTimeout : Option Int := none
  Forwardfor : Option Forwardfor := none
  HTTPPretendKeepalive : String := ""
  Redispatch : Option Redispatch := none
  HashType : Option HashType := none
  Balance : Option Balance := none
  Cookie : Option Cookie := none
  DynamicCookieKey : String := ""
  ConnectTimeout : Option Int := none
  HTTPKeepAliveTimeout : Option Int := none
  HTTPRequestTimeout : Option Int := none
  QueueTimeout : Option Int := none
  ServerTimeout : Option Int := none
  TunnelTimeout : Option Int := none
  ErrorFiles : List Errorfile := []
  deriving DecidableEq, Repr

/-- `models.Server`: `Verify` and `Alpn` are the two fields `AddToParser` writes; `Settings`
stands for the remaining server parameters, which this file passes through untouched. -/
structure Server where
  Name : String := ""
  Address : String := ""
  Port : Option Int := none
  Verify : String := ""
  Alpn : String := ""
  Settings : List (String × String) := []
  deriving DecidableEq, Repr

/-- `models.ServerTemplate`; `Settings` as for `Server`. -/
structure ServerTemplate where
  Prefix : String := ""
  NumOrRange : String := ""
  Fqdn : String := ""
  Port : Option Int := none
  Settings : List (String × String) := []
  deriving DecidableEq, Repr

end models

/-! ## The desired-state objects (`apis/config/v1alpha1`) -/

namespace v1alpha1

/-- `SSLCertificate`: a reference to a certificate file by name. -/
structure SSLCertificate where
  Name : String := ""
  deriving DecidableEq, Repr

/-- `SSL`: the TLS settings of a server or bind. -/
structure SSL where
  Enabled : Bool := false
  MinVersion : String := ""
  Verify : String := ""
  CACertificate : Option SSLCertificate := none
  Certificate : Option SSLCertificate := none
  SNI : String := ""
  Alpn : List String := []
  deriving DecidableEq, Repr

/-- `Check`: health-check settings of a server. -/
structure Check where
  Enabled : Bool := false
  Inter : Option metav1.Duration := none
  deriving DecidableEq, Repr

/-- `ServerParams`: the parameters shared by servers and server templates. -/
structure ServerParams where
  SSL : Option SSL := none
  Weight : Option Int := none
  Check : Option Check := none
  Cookie : Bool := false
  deriving DecidableEq, Repr

/-- `Server` (embeds `ServerParams`). -/
structure Server extends ServerParams where
  Name : String := ""
  Address : String := ""
  Port : Int := 0
  deriving DecidableEq, Repr

/-- `ServerTemplate` (embeds `ServerParams`). -/
structure ServerTemplate extends ServerParams where
  FQDN : String := ""
  NumMin : Option Int := none
  Num : Int := 0
  Port : Int := 0
  Prefix : String := ""
  deriving DecidableEq, Repr

/-- `Balance`. -/
structure Balance where
  Algorithm : String := ""
  deriving DecidableEq, Repr

/-- `HashType`. -/
structure HashType where
  Method : String := ""
  Function : String := ""
  Modifier : String := ""
  deriving DecidableEq, Repr

/-- `CookieMode`: three independent booleans; Go compares the struct by value. -/
structure CookieMode where
  Rewrite : Bool := false
  Insert : Bool := false
  Prefix : Bool := false
  deriving DecidableEq, Repr

/-- `Cookie`. -/
structure Cookie where
  Name : String := ""
  Mode : CookieMode := {}
  Domain : List String := []
  Attribute : List String := []
  Dynamic : Option Bool := none
  HTTPOnly : Option Bool := none
  Indirect : Option Bool := none
  MaxIdle : Int := 0
  MaxLife : Int := 0
  NoCache : Option Bool := none
  PostOnly : Option Bool := none
  Preserve : Option Bool := none
  Secure : Option Bool := none
  deriving DecidableEq, Repr

/-- `Forwardfor`. -/
structure Forwardfor where
  Enabled : Bool := false
  Except : String := ""
  Header : String := ""
  Ifnone : Bool := false
  deriving DecidableEq, Repr

/-- `StaticHTTPFile`. -/
structure StaticHTTPFile where
  Name : String := ""
  Value : Option String := none
  deriving DecidableEq, Repr

/-- `ErrorFile`. -/
structure ErrorFile where
  Code : Int := 0
  File : StaticHTTPFile := {}
  deriving DecidableEq, Repr

/-- `BaseSpec`: the settings common to all section kinds. `Timeouts` lists the entries of
the Go map in the order the `range` loop visits them. The rule lists of `BaseSpec` (ACLs,
HTTP request rules) are read only by `BaseSpec.AddToParser` and are left out. -/
structure BaseSpec where
  Mode : String := ""
  Forwardfor : Option Forwardfor := none
  HTTPPretendKeepalive : Option Bool := none
  Timeouts : List (String × metav1.Duration) := []
  ErrorFiles : List ErrorFile := []
  deriving DecidableEq, Repr

/-- `BackendSpec` (embeds `BaseSpec`); `HostRegex` and `HostCertificate` are not read by
`Model` or `AddToParser`. -/
structure BackendSpec extends BaseSpec where
  CheckTimeout : Option metav1.Duration := none
  Servers : List Server := []
  ServerTemplates : List ServerTemplate := []
  Balance : Option Balance := none
  HostRegex : String := ""
  Redispatch : Option Bool := none
  HashType : Option HashType := none
  Cookie : Option Cookie := none
  deriving DecidableEq, Repr

/-- `Backend`: `Name` is the `ObjectMeta.Name` of the object. -/
structure Backend where
  Name : String := ""
  Spec : BackendSpec := {}
  deriving DecidableEq, Repr

/-! ## `Backend.Model` -/

/-- The collaborators of `Backend.Model` that live outside `backend_types.go`:
`Validate` is `models.Backend.Validate(strfmt.Default)`, `HashTypeModel` is `HashType.Model`,
`ErrorFileModel` is `ErrorFile.Model`, `ToLower` is `strings.ToLower`. -/
structure Collaborators where
  Validate : models.Backend → Error
  HashTypeModel : HashType → Option models.HashType × Error
  ErrorFileModel : ErrorFile → models.Errorfile × Error
  ToLower : String → String

/-- `pointer.BoolDeref(ptr, def)`. -/
def BoolDeref (ptr : Option Bool) (dflt : Bool) : Bool :=
  match ptr with
  | some v => v
  | none => dflt

/-- Lines 72-116 of `Backend.Model`: the model literal and the settings assigned before the
cookie. A failing `HashType.Model` leaves `model.HashType` unassigned (`if err == nil`). -/
def Backend.modelSettings (c : Collaborators) (b : Backend) : models.Backend :=
  let model : models.Backend := { Name := b.Name, Mode := b.Spec.Mode }
  let model :=
    match b.Spec.CheckTimeout with
    | some d => { model with CheckTimeout := some d.Milliseconds }
    | none => model
  let model :=
    match b.Spec.Forwardfor with
    | some ff =>
      { model with
        Forwardfor := some
          { Enabled := if ff.Enabled then some models.ForwardforEnabledEnabled else none
            Except := ff.Except
            Header := ff.Header
            Ifnone := ff.Ifnone } }
    | none => model
  let model :=
    if b.Spec.HTTPPretendKeepalive = some true then
      { model with HTTPPretendKeepalive := models.BackendHTTPPretendKeepaliveEnabled }
    else model
  let model :=
    if b.Spec.Redispatch = some true then
      { model with
        Redispatch := some { Enabled := some models.RedispatchEnabledEnabled, Interval := 3 } }
    else model
  let model :=
    match b.Spec.HashType with
    | some h =>
      match c.HashTypeModel h with
      | (ht, none) => { model with HashType := ht }
      | (_, some _) => model
    | none => model
  let model :=
    match b.Spec.Balance with
    | some bal => { model with Balance := some { Algorithm := some (c.ToLower bal.Algorithm) } }
    | none => model
  model

/-- The `switch b.Spec.Cookie.Mode` of lines 144-155: the cookie type of each of the four
struct values the cases name, `none` for the `default` branch. -/
def cookieType (mode : CookieMode) : Option String :=
  if mode = { Rewrite := true } then some models.CookieTypeRewrite
  else if mode = { Insert := true } then some models.CookieTypeInsert
  else if mode = { Prefix := true } then some models.CookieTypePrefix
  else if mode = {} then some ""
  else none

/-- Lines 119-142: the cookie model before its type is set. -/
def cookieModel (ck : Cookie) : models.Cookie :=
  let cookie : models.Cookie :=
    { Httponly := BoolDeref ck.HTTPOnly false
      Indirect := BoolDeref ck.Indirect false
      Maxidle := ck.MaxIdle
      Maxlife := ck.MaxLife
      Name := some (hash.GetMD5Hash ck.Name)
      Nocache := BoolDeref ck.NoCache false
      Postonly := BoolDeref ck.PostOnly false
      Preserve := BoolDeref ck.Preserve false
      Secure := BoolDeref ck.Secure false
      Dynamic := BoolDeref ck.Dynamic false }
  let cookie :=
    ck.Attribute.foldl (fun ck attr => { ck with Attrs := ck.Attrs ++ [{ Value := attr }] }) cookie
  let cookie :=
    ck.Domain.foldl (fun ck domain => { ck with Domains := ck.Domains ++ [{ Value := domain }] })
      cookie
  cookie

/-- Lines 118-160: the cookie block. `Except.error` is the `default` branch, which makes
`Model` return `models.Backend{}` with the error. -/
def Backend.modelCookie (b : Backend) (model : models.Backend) : Except String models.Backend :=
  match b.Spec.Cookie with
  | none => .ok model
  | some ck =>
    match cookieType ck.Mode with
    | none => .error "you can only select one cookie mode"
    | some ty =>
      let model := { model with Cookie := some { cookieModel ck with Type_ := ty } }
      let model :=
        if BoolDeref ck.Dynamic false then
          { model with DynamicCookieKey := hash.GetMD5Hash ck.Name }
        else model
      .ok model

/-- The `switch name` of lines 163-180 for one entry of the map: the model with the named
timeout assigned, `none` for the `default` branch. -/
def setTimeout (model : models.Backend) (name : String) (timeout : metav1.Duration) :
    Option models.Backend :=
  if name = "check" then some { model with CheckTimeout := some timeout.Milliseconds }
  else if name = "connect" then some { model with ConnectTimeout := some timeout.Milliseconds }
  else if name = "http-keep-alive" then
    some { model with HTTPKeepAliveTimeout := some timeout.Milliseconds }
  else if name = "http-request" then
    some { model with HTTPRequestTimeout := some timeout.Milliseconds }
  else if name = "queue" then some { model with QueueTimeout := some timeout.Milliseconds }
  else if name = "server" then some { model with ServerTimeout := some timeout.Milliseconds }
  else if name = "tunnel" then some { model with TunnelTimeout := some timeout.Milliseconds }
  else none

/-- Lines 162-181: the loop over the entries of `Timeouts` in visiting order. An unknown name
returns the model built so far together with `fmt.Errorf("timeout %s unknown", name)`. -/
def modelTimeouts : List (String × metav1.Duration) → models.Backend → models.Backend × Error
  | [], model => (model, none)
  | (name, timeout) :: rest, model =>
    match setTimeout model name timeout with
    | some model => modelTimeouts rest model
    | none => (model, some ("timeout " ++ name ++ " unknown"))

/-- Lines 183-188: the loop over `ErrorFiles`; a fragment is appended only when its builder
returned no error (`if err == nil`). -/
def modelErrorFiles (c : Collaborators) (efs : List ErrorFile) (model : models.Backend) :
    models.Backend :=
  efs.foldl
    (fun model ef =>
      match c.ErrorFileModel ef with
      | (m, none) => { model with ErrorFiles := model.ErrorFiles ++ [m] }
      | (_, some _) => model)
    model

/-- `func (b *Backend) Model() (models.Backend, error)`. -/
def Backend.Model (c : Collaborators) (b : Backend) : models.Backend × Error :=
  match b.modelCookie (b.modelSettings c) with
  | .error msg => ({}, some msg)
  | .ok model =>
    match modelTimeouts b.Spec.Timeouts model with
    | (model, some err) => (model, some err)
    | (model, none) =>
      let model := modelErrorFiles c b.Spec.ErrorFiles model
      (model, c.Validate model)

end v1alpha1

/-! ## `Backend.AddToParser` -/

namespace parser

/-- `parser.Section`: the kinds of section of the configuration document. -/
inductive Section where
  | Global
  | Defaults
  | Frontends
  | Backends
  deriving DecidableEq, Repr

end parser

namespace v1alpha1

/-- The collaborators of `Backend.AddToParser` over a document of type `σ` whose directives
carry data of type `δ`. Every operation on the document returns its error together with the
document it leaves behind. `SectionsCreate` and `Insert` are the methods of `parser.Parser`,
`CreateEditSection`, `SerializeServer` and `SerializeServerTemplate` come from the
`configuration` package, `BaseSpecAddToParser` is `BaseSpec.AddToParser`, `ServerModel` is
`Server.Model` and `ServerTemplateModel` is `ServerTemplate.Model`. -/
structure Emitter (σ δ : Type) where
  SectionsCreate : parser.Section → String → σ → Error × σ
  Insert : parser.Section → String → String → δ → Nat → σ → Error × σ
  CreateEditSection : models.Backend → parser.Section → String → σ → Error × σ
  BaseSpecAddToParser : BaseSpec → parser.Section → String → σ → Error × σ
  ServerModel : Server → models.Server × Error
  ServerTemplateModel : ServerTemplate → models.ServerTemplate × Error
  SerializeServer : models.Server → δ
  SerializeServerTemplate : models.ServerTemplate → δ

/-- Lines 215-220: the server model after the `verify`/`alpn` adjustment, with the error of
`server.Model()`. -/
def serverModel {σ δ : Type} (em : Emitter σ δ) (server : Server) : models.Server × Error :=
  let (model, err) := em.ServerModel server
  let model :=
    match server.SSL with
    | some ssl =>
      if ssl.Verify = "required" then
        { model with Verify := ssl.Verify, Alpn := ",".intercalate ssl.Alpn }
      else model
    | none => model
  (model, err)

/-- Lines 214-230: the loop over the servers, from index `idx` on. -/
def addServers {σ δ : Type} (em : Emitter σ δ) (name : String) :
    List Server → Nat → σ → Error × σ
  | [], _, p => (none, p)
  | server :: rest, idx, p =>
    match serverModel em server with
    | (_, some err) => (some err, p)
    | (model, none) =>
      match em.Insert .Backends name "server" (em.SerializeServer model) idx p with
      | (some err, p) => (some err, p)
      | (none, p) => addServers em name rest (idx + 1) p

/-- Lines 232-242: the loop over the server templates, from index `idx` on. -/
def addServerTemplates {σ δ : Type} (em : Emitter σ δ) (name : String) :
    List ServerTemplate → Nat → σ → Error × σ
  | [], _, p => (none, p)
  | template :: rest, idx, p =>
    match em.ServerTemplateModel template with
    | (_, some err) => (some err, p)
    | (model, none) =>
      match em.Insert .Backends name "server-template" (em.SerializeServerTemplate model) idx p with
      | (some err, p) => (some err, p)
      | (none, p) => addServerTemplates em name rest (idx + 1) p

/-- Lines 194-212 of `AddToParser`: create the section, build the model, edit the section,
emit the base settings. -/
def Backend.openSection {σ δ : Type} (c : Collaborators) (em : Emitter σ δ) (b : Backend)
    (p : σ) : Error × σ :=
  match em.SectionsCreate .Backends b.Name p with
  | (some err, p) => (some err, p)
  | (none, p) =>
    match b.Model c with
    | (_, some err) => (some err, p)
    | (backend, none) =>
      match em.CreateEditSection backend .Backends b.Name p with
      | (some err, p) => (some err, p)
      | (none, p) => em.BaseSpecAddToParser b.Spec.toBaseSpec .Backends b.Name p

/-- `func (b *Backend) AddToParser(p parser.Parser) error`: the returned error and the
document as the call leaves it. -/
def Backend.AddToParser {σ δ : Type} (c : Collaborators) (em : Emitter σ δ) (b : Backend)
    (p : σ) : Error × σ :=
  match b.openSection c em p with
  | (some err, p) => (some err, p)
  | (none, p) =>
    match addServers em b.Name b.Spec.Servers 0 p with
    | (some err, p) => (some err, p)
    | (none, p) => addServerTemplates em b.Name b.Spec.ServerTemplates 0 p

/-! ## A recording document

A document that is the list of the operations issued on it, oldest first. -/

/-- One operation issued on the document. -/
inductive Op (δ : Type) where
  | SectionsCreate (s : parser.Section) (name : String)
  | CreateEditSection (model : models.Backend) (s : parser.Section) (name : String)
  | Insert (s : parser.Section) (name : String) (attr : String) (data : δ) (index : Nat)
  deriving DecidableEq, Repr

/-- The recording document: every operation is appended to the log when it is issued, and
`accept` decides, from the log so far and the operation, the error the document answers.
`base` is the behaviour of `BaseSpec.AddToParser` on the log; `sm`, `tm`, `ss`, `st` are the
server and template builders and serializers. -/
def recorder {δ : Type} (accept : List (Op δ) → Op δ → Error)
    (base : BaseSpec → parser.Section → String → List (Op δ) → Error × List (Op δ))
    (sm : Server → models.Server × Error) (tm : ServerTemplate → models.ServerTemplate × Error)
    (ss : models.Server → δ) (st : models.ServerTemplate → δ) : Emitter (List (Op δ)) δ where
  SectionsCreate := fun s name log =>
    (accept log (.SectionsCreate s name), log ++ [.SectionsCreate s name])
  Insert := fun s name attr data index log =>
    (accept log (.Insert s name attr data index),
      log ++ [.Insert s name attr data index])
  CreateEditSection := fun model s name log =>
    (accept log (.CreateEditSection model s name), log ++ [.CreateEditSection model s name])
  BaseSpecAddToParser := base
  ServerModel := sm
  ServerTemplateModel := tm
  SerializeServer := ss
  SerializeServerTemplate := st

/-- The inserts the server loop issues for `servers` when every builder succeeds: the
`i`-th carries the serialization of the `i`-th server at index `idx + i`. -/
def serverInserts {σ δ : Type} (em : Emitter σ δ) (name : String) :
    List Server → Nat → List (Op δ)
  | [], _ => []
  | server :: rest, idx =>
    .Insert .Backends name "server" (em.SerializeServer (serverModel em server).1) idx
      :: serverInserts em name rest (idx + 1)

/-- The inserts the template loop issues for `templates` when every builder succeeds. -/
def templateInserts {σ δ : Type} (em : Emitter σ δ) (name : String) :
    List ServerTemplate → Nat → List (Op δ)
  | [], _ => []
  | template :: rest, idx =>
    .Insert .Backends name "server-template"
        (em.SerializeServerTemplate (em.ServerTemplateModel template).1) idx
      :: templateInserts em name rest (idx + 1)

end v1alpha1

/-! ## Vocabulary of the statements -/

namespace v1alpha1

/-- The number of mode flags of a `CookieMode` that are set. -/
def CookieMode.flagsSet (mode : CookieMode) : Nat :=
  mode.Rewrite.toNat + mode.Insert.toNat + mode.Prefix.toNat

/-- The closed set of timeout names `Backend.Model` knows. -/
def timeoutNames : List String :=
  ["check", "connect", "http-keep-alive", "http-request", "queue", "server", "tunnel"]

/-- The model field the `switch name` of lines 163-180 assigns for a timeout name. -/
def timeoutField (name : String) (model : models.Backend) : Option Int :=
  if name = "check" then model.CheckTimeout
  else if name = "connect" then model.ConnectTimeout
  else if name = "http-keep-alive" then model.HTTPKeepAliveTimeout
  else if name = "http-request" then model.HTTPRequestTimeout
  else if name = "queue" then model.QueueTimeout
  else if name = "server" then model.ServerTimeout
  else if name = "tunnel" then model.TunnelTimeout
  else none

end v1alpha1

/-! ## Stand-ins for the collaborators, for evaluating the code at concrete inputs -/

namespace v1alpha1

/-- Whether a forwarded-for block of the model lacks its enabled token. -/
def forwardforWithoutEnabled (ff : Option models.Forwardfor) : Bool :=
  match ff with
  | some block => block.Enabled.isNone
  | none => false

/-- Modelled from the spec: the schema validator is outside the source files; this stand-in
keeps the two section invariants the spec states, "name is non-empty" and "mode, if set,
must be one of the closed set {http, tcp}", and the rule of the model's schema that a
forwarded-for block carries its enabled token. -/
def stubValidate (model : models.Backend) : Error :=
  if model.Name = "" then some "name in body is required"
  else if forwardforWithoutEnabled model.Forwardfor then
    some "forwardfor.enabled in body is required"
  else if model.Mode = "" ∨ model.Mode = "http" ∨ model.Mode = "tcp" then none
  else some "mode in body should be one of [http tcp]"

/-- Modelled from the spec: `HashType.Model` is outside the source files; this stand-in
copies the three fields and rejects a method outside the enumeration of the schema. -/
def stubHashTypeModel (h : HashType) : Option models.HashType × Error :=
  (some { Function := h.Function, Method := h.Method, Modifier := h.Modifier },
    if h.Method = "" ∨ h.Method = "map-based" ∨ h.Method = "consistent" then none
    else some "method in body should be one of [map-based consistent]")

/-- Modelled from the spec: `ErrorFile.Model` is outside the source files; this stand-in
maps the file reference to its canonical path under the configuration root and rejects a
status code outside 200..599. -/
def stubErrorFileModel (ef : ErrorFile) : models.Errorfile × Error :=
  ({ Code := ef.Code, File := "/usr/local/etc/haproxy/" ++ ef.File.Name },
    if 200 ≤ ef.Code ∧ ef.Code ≤ 599 then none else some "code in body should be a status code")

/-- A stand-in for `strings.ToLower`: the letters `A`-`Z` are mapped to `a`-`z`, every
other character is kept. -/
def asciiToLower (s : String) : String :=
  ⟨s.data.map Char.toLower⟩

/-- The stand-in collaborators of `Backend.Model`. -/
def stubCollaborators : Collaborators where
  Validate := stubValidate
  HashTypeModel := stubHashTypeModel
  ErrorFileModel := stubErrorFileModel
  ToLower := asciiToLower

/-- Modelled from the spec: `Server.Model` is outside the source files; the spec's server
builder "requires address+port", a missing address being a hard error. -/
def stubServerModel (server : Server) : models.Server × Error :=
  ({ Name := server.Name, Address := server.Address, Port := some server.Port },
    if server.Address = "" then some "address in body is required" else none)

/-- Modelled from the spec: `ServerTemplate.Model` is outside the source files; the spec's
template builder requires the FQDN. -/
def stubServerTemplateModel (template : ServerTemplate) : models.ServerTemplate × Error :=
  ({ Prefix := template.Prefix, Fqdn := template.FQDN, Port := some template.Port },
    if template.FQDN = "" then some "fqdn in body is required" else none)

/-- A stand-in for `configuration.SerializeServer`: name, address and adjusted fields. -/
def stubSerializeServer (model : models.Server) : String :=
  model.Name ++ " " ++ model.Address ++ " verify=" ++ model.Verify ++ " alpn=" ++ model.Alpn

/-- A stand-in for `configuration.SerializeServerTemplate`: prefix and FQDN. -/
def stubSerializeServerTemplate (model : models.ServerTemplate) : String :=
  model.Prefix ++ " " ++ model.Fqdn

/-- A stand-in for `BaseSpec.AddToParser` with nothing to emit: it succeeds and leaves the
document as it is. -/
def stubBase (_ : BaseSpec) (_ : parser.Section) (_ : String) (log : List (Op String)) :
    Error × List (Op String) :=
  (none, log)

/-- A document that accepts every operation. -/
def acceptAll (_ : List (Op String)) (_ : Op String) : Error := none

/-- A document that rejects the creation of a section that was already created and accepts
every other operation. -/
def rejectDuplicate (log : List (Op String)) (op : Op String) : Error :=
  match op with
  | .SectionsCreate s name =>
    if Op.SectionsCreate s name ∈ log then some "section already exists" else none
  | _ => none

/-- The recording document over the stand-ins, with acceptance decided by `accept`. -/
def stubEmitter (accept : List (Op String) → Op String → Error) :
    Emitter (List (Op String)) String :=
  recorder accept stubBase stubServerModel stubServerTemplateModel stubSerializeServer
    stubSerializeServerTemplate


/-- A Backend with a known and an unknown timeout name. -/
def clientTimeoutBackend : Backend :=
  { Name := "foo"
    Spec := { Timeouts := [("tunnel", metav1.Hour), ("client", 30 * metav1.Second)] } }


/-- The Backend of the test "should set timeouts", with the names `Backend.Model` knows. -/
def timeoutsBackend : Backend :=
  { Name := "foo"
    Spec := { Timeouts := [("tunnel", 1 * metav1.Hour), ("server", 30 * metav1.Second)] } }

/-- The Backend of the test "should set cookie", with the dynamic flag set. -/
def cookieBackend : Backend :=
  { Name := "set_cookie"
    Spec :=
      { Cookie := some
          { Name := "cookie_name", Mode := { Rewrite := true }, Indirect := some true,
            NoCache := some true, PostOnly := some true, Preserve := some true,
            HTTPOnly := some true, Secure := some true, Domain := ["domain1", ".openshift"],
            MaxIdle := 120, MaxLife := 45, Attribute := ["SameSite=None"],
            Dynamic := some true } } }


/-- A Backend whose hash type has an unknown method and whose error file has a code that is
no status code: both fragment builders of the stand-ins return an error. -/
def badFragmentsBackend : Backend :=
  { Name := "foo"
    Spec := { Mode := "http", HashType := some { Method := "bogus" },
              ErrorFiles := [{ Code := 42, File := { Name := "error-file-42.http" } }] } }

/-- A Backend whose cookie selects two modes. -/
def twoModesBackend : Backend :=
  { Name := "foo"
    Spec := { Mode := "http"
              Cookie := some { Name := "cookie_name", Mode := { Rewrite := true, Insert := true } } } }


/-- The Backend of the test "should create servers", with one server template. -/
def serversBackend : Backend :=
  { Name := "foo"
    Spec :=
      { Servers := [{ Name := "server01", Port := 80, Address := "localhost" },
                    { Name := "server02", Port := 81, Address := "localhost" }]
        ServerTemplates := [{ FQDN := "google.com", NumMin := some 1, Num := 3, Port := 80,
                              Prefix := "srv" }] } }

/-- A Backend whose second server has no address, as in the test "should fail if address is
undefined for server", between two well-formed servers and before a template. -/
def noAddressBackend : Backend :=
  { Name := "foo"
    Spec :=
      { Servers := [{ Name := "server01", Port := 80, Address := "localhost" },
                    { Name := "server", Port := 80 },
                    { Name := "server03", Port := 82, Address := "localhost" }]
        ServerTemplates := [{ FQDN := "google.com", NumMin := some 1, Num := 3, Port := 80,
                              Prefix := "srv" }] } }


/-- A Backend the stand-in validator rejects: its mode is outside the closed set. -/
def udpBackend : Backend :=
  { Name := "foo", Spec := { Mode := "udp", Timeouts := [("server", 30 * metav1.Second)] } }

/-- A Backend whose check timeout is one nanosecond before zero. -/
def negativeCheckBackend : Backend :=
  { Name := "foo", Spec := { CheckTimeout := some (-1) } }


/-- The settings of a model that lines 72-116 of `Backend.Model` assign and no later line
touches: name, mode, forwarded-for, http-pretend-keepalive, redispatch, hash type, balance. -/
def settingsOf (model : models.Backend) :
    String × String × Option models.Forwardfor × String × Option models.Redispatch ×
      Option models.HashType × Option models.Balance :=
  (model.Name, model.Mode, model.Forwardfor, model.HTTPPretendKeepalive, model.Redispatch,
    model.HashType, model.Balance)

/-- A Backend whose three boolean-driven settings are present with the boolean false. -/
def forwardforOffBackend : Backend :=
  { Name := "foo"
    Spec := { Forwardfor := some { Enabled := false, Header := "X-Client" },
              HTTPPretendKeepalive := some false, Redispatch := some false } }

/-- A Backend with the three boolean-driven settings enabled. -/
def optionsBackend : Backend :=
  { Name := "foo"
    Spec := { Forwardfor := some { Enabled := true }, HTTPPretendKeepalive := some true,
              Redispatch := some true } }


/-- The Backend of the test "should set load balancer algorithm", with the algorithm written
in mixed case. -/
def balanceBackend : Backend :=
  { Name := "foo", Spec := { Balance := some { Algorithm := "RoundRobin" } } }


/-- A server whose TLS settings ask for verification and list two ALPN protocols. -/
def verifiedServer : Server :=
  { Name := "server", Port := 443, Address := "localhost"
    SSL := some { Enabled := true, Verify := "required", Alpn := ["h2", "http/1.1"] } }

/-- The server of the test "should set ssl parameters", whose verify mode is "none". -/
def unverifiedServer : Server :=
  { Name := "server", Port := 80, Address := "localhost"
    SSL := some { Enabled := true, MinVersion := "TLSv1.3", Verify := "none",
                  CACertificate := some { Name := "test-ca.crt" },
                  Certificate := some { Name := "test.crt" }, SNI := "str(localhost)" }
    Weight := some 256, Cookie := true }


/-- Whether an operation on the document is an insert. -/
def Op.isInsert {δ : Type} : Op δ → Bool
  | .Insert _ _ _ _ _ => true
  | _ => false

/-- The Backend of the test "should create backend/frontend": nothing but a name. -/
def minimalBackend : Backend :=
  { Name := "foo" }

/-- A Backend that sets both the check timeout and a "check" entry of the timeouts. -/
def checkTimeoutBackend : Backend :=
  { Name := "foo"
    Spec := { CheckTimeout := some (5 * metav1.Second)
              Timeouts := [("check", 30 * metav1.Second)] } }


/-- A Backend whose Timeouts map holds two names `Backend.Model` does not know, visited in
the order "client", "frontend". -/
def twoUnknownBackend : Backend :=
  { Name := "foo"
    Spec := { Timeouts := [("client", 30 * metav1.Second), ("frontend", 30 * metav1.Second)] } }

/-- The Backend `twoUnknownBackend` with the same map visited in the other order. -/
def twoUnknownBackendSwapped : Backend :=
  { Name := "foo"
    Spec := { Timeouts := [("frontend", 30 * metav1.Second), ("client", 30 * metav1.Second)] } }


/-- The Backend of the test "should set error files", with a third error file whose code is
no status code between the two of the test. -/
def errorFilesBackend : Backend :=
  { Name := "foo"
    Spec := { ErrorFiles := [{ Code := 403, File := { Name := "error-file-403.http" } },
                             { Code := 42, File := { Name := "error-file-42.http" } },
                             { Code := 404, File := { Name := "error-file-404.http" } }] } }

end v1alpha1

/-! ## Theorems -/

namespace v1alpha1

theorem cookieType_eq_none_iff (mode : CookieMode) :
    cookieType mode = none ↔ 2 ≤ mode.flagsSet := by
  rcases mode with ⟨_ | _, _ | _, _ | _⟩ <;> decide

theorem cookieType_of_le_one (mode : CookieMode) (h : mode.flagsSet ≤ 1) :
    cookieType mode = some
      (if mode.Rewrite then "rewrite" else if mode.Insert then "insert"
        else if mode.Prefix then "prefix" else "") := by
  rcases mode with ⟨_ | _, _ | _, _ | _⟩ <;> first | rfl | (exact absurd h (by decide))

theorem setTimeout_eq_none_iff (model : models.Backend) (name : String) (t : metav1.Duration) :
    setTimeout model name t = none ↔ name ∉ timeoutNames := by
  unfold setTimeout timeoutNames
  constructor
  · intro h
    split_ifs at h
    simp_all
  · intro h
    simp only [List.mem_cons, List.mem_singleton, not_or, List.mem_nil_iff, not_false_eq_true, and_true] at h
    simp [h]

theorem setTimeout_field_self (model model2 : models.Backend) (name : String)
    (t : metav1.Duration) (h : setTimeout model name t = some model2) :
    timeoutField name model2 = some t.Milliseconds := by
  unfold setTimeout at h
  split_ifs at h <;> cases h <;> subst_vars <;> simp [timeoutField]

theorem setTimeout_field_other (model model2 : models.Backend) (name k : String)
    (t : metav1.Duration) (h : setTimeout model name t = some model2) (hk : k ≠ name) :
    timeoutField k model2 = timeoutField k model := by
  unfold setTimeout at h
  split_ifs at h <;> cases h <;> subst_vars <;> simp [timeoutField, hk]

theorem modelTimeouts_ok (l : List (String × metav1.Duration)) (model : models.Backend)
    (h : ∀ kv ∈ l, kv.1 ∈ timeoutNames) : (modelTimeouts l model).2 = none := by
  induction l generalizing model with
  | nil => rfl
  | cons kv rest ih =>
    obtain ⟨name, t⟩ := kv
    have hn : name ∈ timeoutNames := h (name, t) (List.mem_cons_self _ _)
    cases hs : setTimeout model name t with
    | none => exact absurd hn ((setTimeout_eq_none_iff model name t).mp hs)
    | some m2 =>
      simp only [modelTimeouts, hs]
      exact ih m2 (fun kv hkv => h kv (List.mem_cons_of_mem _ hkv))

theorem modelTimeouts_unknown (l : List (String × metav1.Duration)) (model : models.Backend)
    (h : ∃ kv ∈ l, kv.1 ∉ timeoutNames) :
    ∃ kv ∈ l, kv.1 ∉ timeoutNames ∧
      (modelTimeouts l model).2 = some ("timeout " ++ kv.1 ++ " unknown") := by
  induction l generalizing model with
  | nil => obtain ⟨kv, hkv, _⟩ := h; cases hkv
  | cons kv rest ih =>
    obtain ⟨name, t⟩ := kv
    cases hs : setTimeout model name t with
    | none =>
      refine ⟨(name, t), List.mem_cons_self _ _, (setTimeout_eq_none_iff model name t).mp hs, ?_⟩
      simp only [modelTimeouts, hs]
    | some m2 =>
      have hn : name ∈ timeoutNames := by
        by_contra hc
        rw [(setTimeout_eq_none_iff model name t).mpr hc] at hs
        cases hs
      have h2 : ∃ kv ∈ rest, kv.1 ∉ timeoutNames := by
        obtain ⟨kv, hkv, hbad⟩ := h
        rcases List.mem_cons.mp hkv with rfl | hr
        · exact absurd hn hbad
        · exact ⟨kv, hr, hbad⟩
      obtain ⟨kv, hkv, hbad, he⟩ := ih m2 h2
      refine ⟨kv, List.mem_cons_of_mem _ hkv, hbad, ?_⟩
      simp only [modelTimeouts, hs]
      exact he

theorem modelTimeouts_field_absent (l : List (String × metav1.Duration))
    (model : models.Backend) (k : String) (hk : k ∉ l.map Prod.fst) :
    timeoutField k (modelTimeouts l model).1 = timeoutField k model := by
  induction l generalizing model with
  | nil => rfl
  | cons kv rest ih =>
    obtain ⟨name, t⟩ := kv
    simp only [List.map_cons, List.mem_cons, not_or] at hk
    cases hs : setTimeout model name t with
    | none => simp only [modelTimeouts, hs]
    | some m2 =>
      simp only [modelTimeouts, hs]
      rw [ih m2 hk.2]
      exact setTimeout_field_other model m2 name k t hs hk.1

theorem modelTimeouts_field_present (l : List (String × metav1.Duration))
    (model : models.Backend) (hall : ∀ kv ∈ l, kv.1 ∈ timeoutNames)
    (hnd : (l.map Prod.fst).Nodup) (k : String) (d : metav1.Duration) (hkd : (k, d) ∈ l) :
    timeoutField k (modelTimeouts l model).1 = some d.Milliseconds := by
  induction l generalizing model with
  | nil => cases hkd
  | cons kv rest ih =>
    obtain ⟨name, t⟩ := kv
    simp only [List.map_cons, List.nodup_cons] at hnd
    have hn : name ∈ timeoutNames := hall (name, t) (List.mem_cons_self _ _)
    cases hs : setTimeout model name t with
    | none => exact absurd hn ((setTimeout_eq_none_iff model name t).mp hs)
    | some m2 =>
      simp only [modelTimeouts, hs]
      rcases List.mem_cons.mp hkd with heq | hr
      · cases heq
        rw [modelTimeouts_field_absent rest m2 k hnd.1]
        exact setTimeout_field_self model m2 k d hs
      · exact ih m2 (fun kv hkv => hall kv (List.mem_cons_of_mem _ hkv)) hnd.2 hr

theorem setTimeout_frame (model model2 : models.Backend) (name : String)
    (t : metav1.Duration) (h : setTimeout model name t = some model2) :
    model2.Cookie = model.Cookie ∧ model2.DynamicCookieKey = model.DynamicCookieKey := by
  unfold setTimeout at h
  split_ifs at h <;> cases h <;> exact ⟨rfl, rfl⟩

theorem modelTimeouts_frame (l : List (String × metav1.Duration)) (model : models.Backend) :
    (modelTimeouts l model).1.Cookie = model.Cookie ∧
      (modelTimeouts l model).1.DynamicCookieKey = model.DynamicCookieKey := by
  induction l generalizing model with
  | nil => exact ⟨rfl, rfl⟩
  | cons kv rest ih =>
    obtain ⟨name, t⟩ := kv
    cases hs : setTimeout model name t with
    | none => simp only [modelTimeouts, hs, and_self]
    | some m2 =>
      simp only [modelTimeouts, hs]
      obtain ⟨h1, h2⟩ := setTimeout_frame model m2 name t hs
      obtain ⟨i1, i2⟩ := ih m2
      exact ⟨i1.trans h1, i2.trans h2⟩

theorem modelErrorFiles_frame (c : Collaborators) (efs : List ErrorFile)
    (model : models.Backend) :
    (modelErrorFiles c efs model).Cookie = model.Cookie ∧
      (modelErrorFiles c efs model).DynamicCookieKey = model.DynamicCookieKey ∧
      ∀ k, timeoutField k (modelErrorFiles c efs model) = timeoutField k model := by
  unfold modelErrorFiles
  induction efs generalizing model with
  | nil => exact ⟨rfl, rfl, fun _ => rfl⟩
  | cons ef rest ih =>
    simp only [List.foldl_cons]
    rcases hm : c.ErrorFileModel ef with ⟨m, _ | e⟩
    · obtain ⟨i1, i2, i3⟩ := ih { model with ErrorFiles := model.ErrorFiles ++ [m] }
      exact ⟨i1, i2, i3⟩
    · exact ih model


theorem modelSettings_frame (c : Collaborators) (b : Backend) :
    (b.modelSettings c).Cookie = none ∧ (b.modelSettings c).DynamicCookieKey = "" ∧
      ∀ k, k ≠ "check" → timeoutField k (b.modelSettings c) = none := by
  unfold Backend.modelSettings
  dsimp only
  repeat' split
  all_goals exact ⟨rfl, rfl, fun k hk => by simp [timeoutField, hk]⟩

theorem modelCookie_absent (b : Backend) (model : models.Backend)
    (h : b.Spec.Cookie = none) : b.modelCookie model = .ok model := by
  simp only [Backend.modelCookie, h]

theorem modelCookie_invalid (b : Backend) (model : models.Backend) (ck : Cookie)
    (h : b.Spec.Cookie = some ck) (hmode : 2 ≤ ck.Mode.flagsSet) :
    b.modelCookie model = .error "you can only select one cookie mode" := by
  simp only [Backend.modelCookie, h, (cookieType_eq_none_iff ck.Mode).mpr hmode]

theorem modelCookie_valid (b : Backend) (model : models.Backend) (ck : Cookie)
    (h : b.Spec.Cookie = some ck) (hmode : ck.Mode.flagsSet ≤ 1) :
    ∃ m2, b.modelCookie model = .ok m2 ∧
      m2.Cookie = some { cookieModel ck with
        Type_ := if ck.Mode.Rewrite then "rewrite" else if ck.Mode.Insert then "insert"
          else if ck.Mode.Prefix then "prefix" else "" } ∧
      m2.DynamicCookieKey =
        (if BoolDeref ck.Dynamic false then hash.GetMD5Hash ck.Name
          else model.DynamicCookieKey) ∧
      ∀ k, timeoutField k m2 = timeoutField k model := by
  simp only [Backend.modelCookie, h, cookieType_of_le_one ck.Mode hmode]
  split
  · exact ⟨_, rfl, rfl, rfl, fun _ => rfl⟩
  · exact ⟨_, rfl, rfl, rfl, fun _ => rfl⟩

theorem cookieModel_Name (ck : Cookie) :
    (cookieModel ck).Name = some (hash.GetMD5Hash ck.Name) := by
  unfold cookieModel
  dsimp only
  have h1 : ∀ (l : List String) (m : models.Cookie),
      (l.foldl (fun ck attr => { ck with Attrs := ck.Attrs ++ [{ Value := attr }] }) m).Name
        = m.Name := by
    intro l
    induction l with
    | nil => intro m; rfl
    | cons a rest ih => intro m; simp only [List.foldl_cons]; rw [ih]
  have h2 : ∀ (l : List String) (m : models.Cookie),
      (l.foldl (fun ck d => { ck with Domains := ck.Domains ++ [{ Value := d }] }) m).Name
        = m.Name := by
    intro l
    induction l with
    | nil => intro m; rfl
    | cons a rest ih => intro m; simp only [List.foldl_cons]; rw [ih]
  rw [h2, h1]

theorem Model_of_timeouts_ok (c : Collaborators) (b : Backend) (m : models.Backend)
    (hc : b.modelCookie (b.modelSettings c) = .ok m)
    (ht : (modelTimeouts b.Spec.Timeouts m).2 = none) :
    b.Model c = (modelErrorFiles c b.Spec.ErrorFiles (modelTimeouts b.Spec.Timeouts m).1,
      c.Validate (modelErrorFiles c b.Spec.ErrorFiles (modelTimeouts b.Spec.Timeouts m).1)) := by
  unfold Backend.Model
  rw [hc]
  dsimp only
  rcases hm : modelTimeouts b.Spec.Timeouts m with ⟨m2, _ | e⟩
  · rfl
  · rw [hm] at ht; cases ht

theorem Model_of_timeouts_err (c : Collaborators) (b : Backend) (m : models.Backend)
    (e : String) (hc : b.modelCookie (b.modelSettings c) = .ok m)
    (ht : (modelTimeouts b.Spec.Timeouts m).2 = some e) :
    b.Model c = ((modelTimeouts b.Spec.Timeouts m).1, some e) := by
  unfold Backend.Model
  rw [hc]
  dsimp only
  rcases hm : modelTimeouts b.Spec.Timeouts m with ⟨m2, _ | e2⟩
  · rw [hm] at ht; cases ht
  · rw [hm] at ht; cases ht; rfl

theorem Model_of_cookie_invalid (c : Collaborators) (b : Backend) (ck : Cookie)
    (h : b.Spec.Cookie = some ck) (hmode : 2 ≤ ck.Mode.flagsSet) :
    b.Model c = ({}, some "you can only select one cookie mode") := by
  unfold Backend.Model
  rw [modelCookie_invalid b _ ck h hmode]

/-- The cookie block succeeds exactly when no cookie is present or its mode is valid. -/
theorem modelCookie_ok_of_modes (b : Backend) (model : models.Backend)
    (h : ∀ ck, b.Spec.Cookie = some ck → ck.Mode.flagsSet ≤ 1) :
    ∃ m2, b.modelCookie model = .ok m2 ∧ ∀ k, timeoutField k m2 = timeoutField k model := by
  cases hck : b.Spec.Cookie with
  | none => exact ⟨model, modelCookie_absent b model hck, fun _ => rfl⟩
  | some ck =>
    obtain ⟨m2, h1, _, _, h4⟩ := modelCookie_valid b model ck hck (h ck hck)
    exact ⟨m2, h1, h4⟩


theorem cookieTypeName_flags (mode : CookieMode) (h : mode.flagsSet ≤ 1) :
    (mode.Rewrite = true →
        (if mode.Rewrite then "rewrite" else if mode.Insert then "insert"
          else if mode.Prefix then "prefix" else "") = "rewrite") ∧
      (mode.Insert = true →
        (if mode.Rewrite then "rewrite" else if mode.Insert then "insert"
          else if mode.Prefix then "prefix" else "") = "insert") ∧
      (mode.Prefix = true →
        (if mode.Rewrite then "rewrite" else if mode.Insert then "insert"
          else if mode.Prefix then "prefix" else "") = "prefix") ∧
      (mode.Rewrite = false → mode.Insert = false → mode.Prefix = false →
        (if mode.Rewrite then "rewrite" else if mode.Insert then "insert"
          else if mode.Prefix then "prefix" else "") = "") := by
  revert h
  rcases mode with ⟨_ | _, _ | _, _ | _⟩ <;> decide

/-- C1: a Backend whose Cookie has two or more of the mode flags Rewrite, Insert, Prefix set
makes `Backend.Model` return the error "you can only select one cookie mode" together with
the empty model, whatever the collaborators and every other field of the Backend are. -/
theorem Model_rejects_two_cookie_modes (c : Collaborators) (b : Backend) (ck : Cookie)
    (hck : b.Spec.Cookie = some ck) (hmode : 2 ≤ ck.Mode.flagsSet) :
    b.Model c = (({} : models.Backend), some "you can only select one cookie mode") :=
  Model_of_cookie_invalid c b ck hck hmode

theorem Model_rejects_two_cookie_modes_witness :
    Backend.Model stubCollaborators
        { Name := "foo"
          Spec := { Mode := "http", Balance := some { Algorithm := "roundrobin" },
                    Cookie := some { Name := "cookie_name",
                                     Mode := { Rewrite := true, Prefix := true } } } }
      = (({} : models.Backend), some "you can only select one cookie mode") :=
  Model_rejects_two_cookie_modes stubCollaborators _
    { Name := "cookie_name", Mode := { Rewrite := true, Prefix := true } } rfl (by decide)

/-- C2: a Backend whose Cookie has at most one mode flag set, whose Timeouts keys are all
known and whose assembled model the validator accepts makes `Backend.Model` succeed, and the
cookie type of the model is "rewrite", "insert" or "prefix" according to the flag set and
the empty string when none is set. -/
theorem Model_cookie_type (c : Collaborators) (b : Backend) (ck : Cookie)
    (hck : b.Spec.Cookie = some ck) (hmode : ck.Mode.flagsSet ≤ 1)
    (hkeys : ∀ kv ∈ b.Spec.Timeouts, kv.1 ∈ timeoutNames)
    (hval : c.Validate (b.Model c).1 = none) :
    (b.Model c).2 = none ∧
      ∃ mck, (b.Model c).1.Cookie = some mck ∧
        (ck.Mode.Rewrite = true → mck.Type_ = "rewrite") ∧
        (ck.Mode.Insert = true → mck.Type_ = "insert") ∧
        (ck.Mode.Prefix = true → mck.Type_ = "prefix") ∧
        (ck.Mode.Rewrite = false → ck.Mode.Insert = false → ck.Mode.Prefix = false →
          mck.Type_ = "") := by
  obtain ⟨m2, hm2, hcookie, _, _⟩ := modelCookie_valid b (b.modelSettings c) ck hck hmode
  have hM := Model_of_timeouts_ok c b m2 hm2 (modelTimeouts_ok _ m2 hkeys)
  rw [hM] at hval ⊢
  have hC := ((modelErrorFiles_frame c b.Spec.ErrorFiles _).1.trans
    (modelTimeouts_frame b.Spec.Timeouts m2).1).trans hcookie
  refine ⟨hval, _, hC, ?_⟩
  exact cookieTypeName_flags ck.Mode hmode

theorem Model_cookie_type_witness :
    (Backend.Model stubCollaborators
        { Name := "set_cookie"
          Spec := { Timeouts := [("tunnel", metav1.Hour)],
                    Cookie := some { Name := "cookie_name", Mode := { Rewrite := true } } } }).2
        = none ∧
      ∃ mck, (Backend.Model stubCollaborators
        { Name := "set_cookie"
          Spec := { Timeouts := [("tunnel", metav1.Hour)],
                    Cookie := some { Name := "cookie_name", Mode := { Rewrite := true } } } }).1.Cookie
          = some mck ∧
        (true = true → mck.Type_ = "rewrite") ∧
        (false = true → mck.Type_ = "insert") ∧
        (false = true → mck.Type_ = "prefix") ∧
        (true = false → false = false → false = false → mck.Type_ = "") :=
  Model_cookie_type stubCollaborators _
    { Name := "cookie_name", Mode := { Rewrite := true } } rfl (by decide) (by decide) rfl


theorem cookie_flags_cases (b : Backend) :
    (∃ ck, b.Spec.Cookie = some ck ∧ 2 ≤ ck.Mode.flagsSet) ∨
      (∀ ck, b.Spec.Cookie = some ck → ck.Mode.flagsSet ≤ 1) := by
  cases hck : b.Spec.Cookie with
  | none => right; intro ck h; cases h
  | some ck =>
    by_cases h : 2 ≤ ck.Mode.flagsSet
    · exact Or.inl ⟨ck, rfl, h⟩
    · right; intro ck2 h2; cases h2; omega

theorem Model_frame_of_cookie_ok (c : Collaborators) (b : Backend) (m : models.Backend)
    (hc : b.modelCookie (b.modelSettings c) = .ok m) :
    (b.Model c).1.Cookie = m.Cookie ∧ (b.Model c).1.DynamicCookieKey = m.DynamicCookieKey := by
  cases ht : (modelTimeouts b.Spec.Timeouts m).2 with
  | none =>
    rw [Model_of_timeouts_ok c b m hc ht]
    exact ⟨(modelErrorFiles_frame c _ _).1.trans (modelTimeouts_frame _ m).1,
      (modelErrorFiles_frame c _ _).2.1.trans (modelTimeouts_frame _ m).2⟩
  | some e =>
    rw [Model_of_timeouts_err c b m e hc ht]
    exact modelTimeouts_frame _ m

theorem GetMD5Hash_cookie_name :
    hash.GetMD5Hash "cookie_name" = "e3cb9741ffde596f46710a5d7e3ec587" := by decide

theorem BoolDeref_false_eq_true (p : Option Bool) :
    BoolDeref p false = true ↔ p = some true := by
  rcases p with _ | _ | _ <;> simp [BoolDeref]

/-- C3: a Backend whose Timeouts contain a key outside the seven known names makes
`Backend.Model` return an error; when the cookie mode is valid and `k` is the only such key
the message is exactly "timeout k unknown"; in particular a "client" key is rejected. -/
theorem Model_rejects_unknown_timeout (c : Collaborators) (b : Backend) :
    ((∃ kv ∈ b.Spec.Timeouts, kv.1 ∉ timeoutNames) → (b.Model c).2 ≠ none) ∧
      (∀ k : String, (∀ ck, b.Spec.Cookie = some ck → ck.Mode.flagsSet ≤ 1) →
        (∃ d, (k, d) ∈ b.Spec.Timeouts) → k ∉ timeoutNames →
        (∀ kv ∈ b.Spec.Timeouts, kv.1 ∉ timeoutNames → kv.1 = k) →
        (b.Model c).2 = some ("timeout " ++ k ++ " unknown")) ∧
      ((∃ d, ("client", d) ∈ b.Spec.Timeouts) → (b.Model c).2 ≠ none) := by
  have part1 : (∃ kv ∈ b.Spec.Timeouts, kv.1 ∉ timeoutNames) → (b.Model c).2 ≠ none := by
    intro hbad
    rcases cookie_flags_cases b with ⟨ck, hck, h2⟩ | hvalid
    · rw [Model_of_cookie_invalid c b ck hck h2]
      exact Option.some_ne_none _
    · obtain ⟨m2, hm2, _⟩ := modelCookie_ok_of_modes b (b.modelSettings c) hvalid
      obtain ⟨kv, _, _, he⟩ := modelTimeouts_unknown b.Spec.Timeouts m2 hbad
      rw [Model_of_timeouts_err c b m2 _ hm2 he]
      exact Option.some_ne_none _
  refine ⟨part1, ?_, ?_⟩
  · intro k hvalid ⟨d, hd⟩ hk honly
    obtain ⟨m2, hm2, _⟩ := modelCookie_ok_of_modes b (b.modelSettings c) hvalid
    obtain ⟨kv, hkv, hbad, he⟩ := modelTimeouts_unknown b.Spec.Timeouts m2 ⟨(k, d), hd, hk⟩
    rw [Model_of_timeouts_err c b m2 _ hm2 he, honly kv hkv hbad]
  · rintro ⟨d, hd⟩
    exact part1 ⟨("client", d), hd, (by decide : "client" ∉ timeoutNames)⟩


theorem Model_rejects_unknown_timeout_witness :
    (Backend.Model stubCollaborators clientTimeoutBackend).2 = some "timeout client unknown" :=
  (Model_rejects_unknown_timeout stubCollaborators clientTimeoutBackend).2.1 "client"
    (fun _ h => nomatch h) ⟨30 * metav1.Second, by decide⟩ (by decide) (by decide)


theorem Model_timeoutField (c : Collaborators) (b : Backend)
    (hkeys : ∀ kv ∈ b.Spec.Timeouts, kv.1 ∈ timeoutNames)
    (hmode : ∀ ck, b.Spec.Cookie = some ck → ck.Mode.flagsSet ≤ 1)
    (hnd : (b.Spec.Timeouts.map Prod.fst).Nodup) :
    (∀ k d, (k, d) ∈ b.Spec.Timeouts →
        timeoutField k (b.Model c).1 = some (metav1.Duration.Milliseconds d)) ∧
      (∀ k, k ≠ "check" → k ∉ b.Spec.Timeouts.map Prod.fst →
        timeoutField k (b.Model c).1 = none) := by
  obtain ⟨m2, hm2, hfield⟩ := modelCookie_ok_of_modes b (b.modelSettings c) hmode
  rw [Model_of_timeouts_ok c b m2 hm2 (modelTimeouts_ok _ m2 hkeys)]
  constructor
  · intro k d hkd
    rw [(modelErrorFiles_frame c _ _).2.2 k]
    exact modelTimeouts_field_present _ m2 hkeys hnd k d hkd
  · intro k hk habs
    rw [(modelErrorFiles_frame c _ _).2.2 k, modelTimeouts_field_absent _ m2 k habs, hfield k]
    exact (modelSettings_frame c b).2.2 k hk

/-- C4: for a Backend whose Timeouts keys (distinct, as the keys of a map are) all lie in the
seven known names and whose cookie mode is valid, the built model has, for each key present,
the corresponding field equal to the duration in milliseconds (30s gives 30000, 1h gives
3600000), and for each of connect, http-keep-alive, http-request, queue, server, tunnel that
is absent the corresponding field is unset. -/
theorem Model_timeouts_fields (c : Collaborators) (b : Backend)
    (hkeys : ∀ kv ∈ b.Spec.Timeouts, kv.1 ∈ timeoutNames)
    (hmode : ∀ ck, b.Spec.Cookie = some ck → ck.Mode.flagsSet ≤ 1)
    (hnd : (b.Spec.Timeouts.map Prod.fst).Nodup) :
    ((∀ d, ("check", d) ∈ b.Spec.Timeouts →
        (b.Model c).1.CheckTimeout = some (metav1.Duration.Milliseconds d)) ∧
      (∀ d, ("connect", d) ∈ b.Spec.Timeouts →
        (b.Model c).1.ConnectTimeout = some (metav1.Duration.Milliseconds d)) ∧
      (∀ d, ("http-keep-alive", d) ∈ b.Spec.Timeouts →
        (b.Model c).1.HTTPKeepAliveTimeout = some (metav1.Duration.Milliseconds d)) ∧
      (∀ d, ("http-request", d) ∈ b.Spec.Timeouts →
        (b.Model c).1.HTTPRequestTimeout = some (metav1.Duration.Milliseconds d)) ∧
      (∀ d, ("queue", d) ∈ b.Spec.Timeouts →
        (b.Model c).1.QueueTimeout = some (metav1.Duration.Milliseconds d)) ∧
      (∀ d, ("server", d) ∈ b.Spec.Timeouts →
        (b.Model c).1.ServerTimeout = some (metav1.Duration.Milliseconds d)) ∧
      (∀ d, ("tunnel", d) ∈ b.Spec.Timeouts →
        (b.Model c).1.TunnelTimeout = some (metav1.Duration.Milliseconds d))) ∧
    (("connect" ∉ b.Spec.Timeouts.map Prod.fst → (b.Model c).1.ConnectTimeout = none) ∧
      ("http-keep-alive" ∉ b.Spec.Timeouts.map Prod.fst →
        (b.Model c).1.HTTPKeepAliveTimeout = none) ∧
      ("http-request" ∉ b.Spec.Timeouts.map Prod.fst →
        (b.Model c).1.HTTPRequestTimeout = none) ∧
      ("queue" ∉ b.Spec.Timeouts.map Prod.fst → (b.Model c).1.QueueTimeout = none) ∧
      ("server" ∉ b.Spec.Timeouts.map Prod.fst → (b.Model c).1.ServerTimeout = none) ∧
      ("tunnel" ∉ b.Spec.Timeouts.map Prod.fst → (b.Model c).1.TunnelTimeout = none)) ∧
    metav1.Duration.Milliseconds (30 * metav1.Second) = 30000 ∧
    metav1.Duration.Milliseconds (1 * metav1.Hour) = 3600000 := by
  obtain ⟨hp, ha⟩ := Model_timeoutField c b hkeys hmode hnd
  refine ⟨⟨fun d h => hp "check" d h, fun d h => hp "connect" d h,
    fun d h => hp "http-keep-alive" d h, fun d h => hp "http-request" d h,
    fun d h => hp "queue" d h, fun d h => hp "server" d h, fun d h => hp "tunnel" d h⟩,
    ⟨fun h => ha "connect" (by decide) h, fun h => ha "http-keep-alive" (by decide) h,
      fun h => ha "http-request" (by decide) h, fun h => ha "queue" (by decide) h,
      fun h => ha "server" (by decide) h, fun h => ha "tunnel" (by decide) h⟩,
    by decide, by decide⟩

theorem Model_timeouts_fields_witness :
    (Backend.Model stubCollaborators timeoutsBackend).1.TunnelTimeout = some 3600000 ∧
      (Backend.Model stubCollaborators timeoutsBackend).1.ServerTimeout = some 30000 ∧
      (Backend.Model stubCollaborators timeoutsBackend).1.ConnectTimeout = none :=
  have h := Model_timeouts_fields stubCollaborators timeoutsBackend (by decide)
    (fun _ h => nomatch h) (by decide)
  ⟨(h.1.2.2.2.2.2.2 (1 * metav1.Hour) (by decide)).trans (congrArg some h.2.2.2),
    (h.1.2.2.2.2.2.1 (30 * metav1.Second) (by decide)).trans (congrArg some h.2.2.1),
    h.2.1.1 (by decide)⟩

/-- C5: for a Backend with a Cookie, the cookie name in the built model is the lowercase-hex
MD5 digest of the spec's cookie name, whatever the collaborators and the other fields are (a
valid cookie mode always yields a model with a cookie); for the cookie name "cookie_name" it
is the literal `e3cb9741ffde596f46710a5d7e3ec587`. -/
theorem Model_cookie_name (c : Collaborators) (b : Backend) (ck : Cookie)
    (hck : b.Spec.Cookie = some ck) :
    (ck.Mode.flagsSet ≤ 1 → ∃ mck, (b.Model c).1.Cookie = some mck) ∧
      ∀ mck, (b.Model c).1.Cookie = some mck →
        mck.Name = some (hash.GetMD5Hash ck.Name) ∧
          (ck.Name = "cookie_name" → mck.Name = some "e3cb9741ffde596f46710a5d7e3ec587") := by
  by_cases hmode : ck.Mode.flagsSet ≤ 1
  · obtain ⟨m2, hm2, hcookie, _, _⟩ := modelCookie_valid b (b.modelSettings c) ck hck hmode
    have hC := (Model_frame_of_cookie_ok c b m2 hm2).1.trans hcookie
    refine ⟨fun _ => ⟨_, hC⟩, ?_⟩
    intro mck hmck
    rw [hC] at hmck
    cases hmck
    have hname := cookieModel_Name ck
    refine ⟨hname, ?_⟩
    intro hn
    rw [hn] at hname
    rw [hname, GetMD5Hash_cookie_name]
  · rw [Model_of_cookie_invalid c b ck hck (by omega)]
    exact ⟨fun h => absurd h hmode, fun mck h => nomatch h⟩

theorem Model_cookie_name_witness :
    ∃ mck, (Backend.Model stubCollaborators cookieBackend).1.Cookie = some mck ∧
      mck.Name = some "e3cb9741ffde596f46710a5d7e3ec587" :=
  have h := Model_cookie_name stubCollaborators cookieBackend _ rfl
  (h.1 (by decide)).elim fun mck hm => ⟨mck, hm, (h.2 mck hm).2 rfl⟩

/-- C6: on every Backend on which `Backend.Model` succeeds, the dynamic cookie key of the
model is the hashed cookie name of the model when a Cookie is present with Dynamic set to
true, and is empty in every other case (no Cookie, Dynamic unset or false). -/
theorem Model_dynamic_cookie_key (c : Collaborators) (b : Backend)
    (hok : (b.Model c).2 = none) :
    (∀ ck, b.Spec.Cookie = some ck → ck.Dynamic = some true →
        (b.Model c).1.DynamicCookieKey = hash.GetMD5Hash ck.Name ∧
          ∃ mck, (b.Model c).1.Cookie = some mck ∧
            mck.Name = some (b.Model c).1.DynamicCookieKey) ∧
      ((∀ ck, b.Spec.Cookie = some ck → ck.Dynamic ≠ some true) →
        (b.Model c).1.DynamicCookieKey = "") := by
  rcases cookie_flags_cases b with ⟨ck, hck, h2⟩ | hvalid
  · rw [Model_of_cookie_invalid c b ck hck h2] at hok
    cases hok
  · constructor
    · intro ck hck hdyn
      obtain ⟨m2, hm2, hcookie, hkey, _⟩ :=
        modelCookie_valid b (b.modelSettings c) ck hck (hvalid ck hck)
      obtain ⟨hC, hK⟩ := Model_frame_of_cookie_ok c b m2 hm2
      rw [if_pos ((BoolDeref_false_eq_true ck.Dynamic).mpr hdyn)] at hkey
      refine ⟨hK.trans hkey, _, hC.trans hcookie, ?_⟩
      rw [hK, hkey]
      exact cookieModel_Name ck
    · intro hnd
      cases hck : b.Spec.Cookie with
      | none =>
        have hK := (Model_frame_of_cookie_ok c b _ (modelCookie_absent b _ hck)).2
        rw [hK]
        exact (modelSettings_frame c b).2.1
      | some ck =>
        obtain ⟨m2, hm2, _, hkey, _⟩ :=
          modelCookie_valid b (b.modelSettings c) ck hck (hvalid ck hck)
        have hK := (Model_frame_of_cookie_ok c b m2 hm2).2
        have hfalse : ¬ BoolDeref ck.Dynamic false = true :=
          fun h => hnd ck hck ((BoolDeref_false_eq_true ck.Dynamic).mp h)
        rw [if_neg hfalse] at hkey
        rw [hK, hkey]
        exact (modelSettings_frame c b).2.1

theorem Model_dynamic_cookie_key_witness :
    (Backend.Model stubCollaborators cookieBackend).1.DynamicCookieKey
        = hash.GetMD5Hash "cookie_name" ∧
      ∃ mck, (Backend.Model stubCollaborators cookieBackend).1.Cookie = some mck ∧
        mck.Name = some (Backend.Model stubCollaborators cookieBackend).1.DynamicCookieKey :=
  (Model_dynamic_cookie_key stubCollaborators cookieBackend rfl).1 _ rfl rfl


theorem modelErrorFiles_filter (c : Collaborators) (efs : List ErrorFile)
    (model : models.Backend) :
    modelErrorFiles c (efs.filter (fun ef => (c.ErrorFileModel ef).2.isNone)) model
      = modelErrorFiles c efs model := by
  unfold modelErrorFiles
  induction efs generalizing model with
  | nil => rfl
  | cons ef rest ih =>
    rcases hm : c.ErrorFileModel ef with ⟨m, _ | e⟩
    · simp only [List.filter_cons, hm, Option.isNone_none, if_true, List.foldl_cons]
      exact ih _
    · simp only [List.filter_cons, hm, Option.isNone_some, Bool.false_eq_true, if_false,
        List.foldl_cons]
      exact ih _

/-- Counterexample to C7: both fragment builders fail on `badFragmentsBackend`, and
`Backend.Model` succeeds with a model that has neither the hash type nor the error file. -/
theorem Model_builder_errors_counterexample :
    (stubCollaborators.HashTypeModel { Method := "bogus" }).2 ≠ none ∧
      (stubCollaborators.ErrorFileModel
        { Code := 42, File := { Name := "error-file-42.http" } }).2 ≠ none ∧
      Backend.Model stubCollaborators badFragmentsBackend
        = (({ Name := "foo", Mode := "http" } : models.Backend), none) := by
  decide

/-- C7 (amended): a failing fragment builder does not abort `Backend.Model`. A Backend whose
HashType builder returns an error is compiled exactly as the same Backend without HashType,
the ErrorFiles whose builder returns an error are skipped exactly as if they were not in the
list, and when the cookie mode is valid and every timeout name is known the error returned is
the verdict of the validator on the model alone. -/
theorem Model_skips_failed_fragments (c : Collaborators) (b : Backend) :
    (∀ h, b.Spec.HashType = some h → (c.HashTypeModel h).2 ≠ none →
        b.Model c = Backend.Model c { b with Spec := { b.Spec with HashType := none } }) ∧
      b.Model c = Backend.Model c
        { b with Spec := { b.Spec with
            ErrorFiles := b.Spec.ErrorFiles.filter (fun ef => (c.ErrorFileModel ef).2.isNone) } } ∧
      ((∀ ck, b.Spec.Cookie = some ck → ck.Mode.flagsSet ≤ 1) →
        (∀ kv ∈ b.Spec.Timeouts, kv.1 ∈ timeoutNames) →
        (b.Model c).2 = c.Validate (b.Model c).1) := by
  refine ⟨?_, ?_, ?_⟩
  · intro h hh herr
    have hs : b.modelSettings c
        = Backend.modelSettings c { b with Spec := { b.Spec with HashType := none } } := by
      rcases hm : c.HashTypeModel h with ⟨ht, _ | e⟩
      · rw [hm] at herr; exact absurd rfl herr
      · simp only [Backend.modelSettings, hh, hm]
    unfold Backend.Model
    rw [hs]
    rfl
  · unfold Backend.Model
    simp only [modelErrorFiles_filter]
    rfl
  · intro hvalid hkeys
    obtain ⟨m2, hm2, _⟩ := modelCookie_ok_of_modes b (b.modelSettings c) hvalid
    rw [Model_of_timeouts_ok c b m2 hm2 (modelTimeouts_ok _ m2 hkeys)]

theorem Model_skips_failed_fragments_witness :
    Backend.Model stubCollaborators badFragmentsBackend
      = Backend.Model stubCollaborators
          { badFragmentsBackend with
            Spec := { badFragmentsBackend.Spec with HashType := none } } :=
  (Model_skips_failed_fragments stubCollaborators badFragmentsBackend).1
    { Method := "bogus" } rfl (by decide)

/-- Counterexample to C8: on `twoModesBackend`, whose model fails to build, `AddToParser`
on the empty accepting document returns the error of `Model` and leaves a document in which
the section has been created. -/
theorem AddToParser_model_error_counterexample :
    (Backend.Model stubCollaborators twoModesBackend).2
        = some "you can only select one cookie mode" ∧
      Backend.AddToParser stubCollaborators (stubEmitter acceptAll) twoModesBackend []
        = (some "you can only select one cookie mode",
            [Op.SectionsCreate parser.Section.Backends "foo"]) := by
  decide

/-- C8 (amended): for every Backend whose `Backend.Model` returns an error and every
document, `AddToParser` has performed exactly one operation on the document, the creation of
the section: when the document accepts the creation, `AddToParser` returns the error of
`Model` and the document is as the creation left it (no edit, no base settings, no insert);
when the document rejects it, `AddToParser` returns the error of the creation. -/
theorem AddToParser_model_error {σ δ : Type} (c : Collaborators) (em : Emitter σ δ)
    (b : Backend) (p : σ) (e : String) (hmodel : (b.Model c).2 = some e) :
    ((em.SectionsCreate .Backends b.Name p).1 = none →
        b.AddToParser c em p = (some e, (em.SectionsCreate .Backends b.Name p).2)) ∧
      (∀ e0, (em.SectionsCreate .Backends b.Name p).1 = some e0 →
        b.AddToParser c em p = (some e0, (em.SectionsCreate .Backends b.Name p).2)) := by
  unfold Backend.AddToParser Backend.openSection
  rcases hs : em.SectionsCreate .Backends b.Name p with ⟨_ | e0, p1⟩
  · rcases hm : b.Model c with ⟨m, _ | e1⟩
    · rw [hm] at hmodel; cases hmodel
    · rw [hm] at hmodel; cases hmodel
      exact ⟨fun _ => rfl, fun e0 h => nomatch h⟩
  · refine ⟨fun h => (nomatch h), fun e1 h => ?_⟩
    cases h
    rfl

theorem AddToParser_model_error_witness :
    Backend.AddToParser stubCollaborators (stubEmitter acceptAll) twoModesBackend []
      = (some "you can only select one cookie mode",
          ((stubEmitter acceptAll).SectionsCreate .Backends twoModesBackend.Name []).2) :=
  (AddToParser_model_error stubCollaborators (stubEmitter acceptAll) twoModesBackend []
    "you can only select one cookie mode" (by decide)).1 rfl


theorem serverModel_snd {σ δ : Type} (em : Emitter σ δ) (server : Server) :
    (serverModel em server).2 = (em.ServerModel server).2 := by
  unfold serverModel
  rcases em.ServerModel server with ⟨m, e⟩
  rfl

theorem serverInserts_length {σ δ : Type} (em : Emitter σ δ) (name : String)
    (l : List Server) (idx : Nat) : (serverInserts em name l idx).length = l.length := by
  induction l generalizing idx with
  | nil => rfl
  | cons s rest ih => simp only [serverInserts, List.length_cons, ih]

theorem templateInserts_length {σ δ : Type} (em : Emitter σ δ) (name : String)
    (l : List ServerTemplate) (idx : Nat) :
    (templateInserts em name l idx).length = l.length := by
  induction l generalizing idx with
  | nil => rfl
  | cons s rest ih => simp only [templateInserts, List.length_cons, ih]

theorem serverInserts_getElem? {σ δ : Type} (em : Emitter σ δ) (name : String)
    (l : List Server) (idx i : Nat) (s : Server) (h : l[i]? = some s) :
    (serverInserts em name l idx)[i]?
      = some (.Insert .Backends name "server" (em.SerializeServer (serverModel em s).1)
          (idx + i)) := by
  induction l generalizing idx i with
  | nil => simp at h
  | cons x rest ih =>
    cases i with
    | zero =>
      simp only [List.getElem?_cons_zero, Option.some.injEq] at h
      subst h
      simp only [serverInserts, List.getElem?_cons_zero, Nat.add_zero]
    | succ j =>
      simp only [List.getElem?_cons_succ] at h
      simp only [serverInserts, List.getElem?_cons_succ]
      rw [ih (idx + 1) j h]
      congr 2
      omega

theorem templateInserts_getElem? {σ δ : Type} (em : Emitter σ δ) (name : String)
    (l : List ServerTemplate) (idx i : Nat) (t : ServerTemplate) (h : l[i]? = some t) :
    (templateInserts em name l idx)[i]?
      = some (.Insert .Backends name "server-template"
          (em.SerializeServerTemplate (em.ServerTemplateModel t).1) (idx + i)) := by
  induction l generalizing idx i with
  | nil => simp at h
  | cons x rest ih =>
    cases i with
    | zero =>
      simp only [List.getElem?_cons_zero, Option.some.injEq] at h
      subst h
      simp only [templateInserts, List.getElem?_cons_zero, Nat.add_zero]
    | succ j =>
      simp only [List.getElem?_cons_succ] at h
      simp only [templateInserts, List.getElem?_cons_succ]
      rw [ih (idx + 1) j h]
      congr 2
      omega

theorem recorder_Insert {δ : Type} (accept : List (Op δ) → Op δ → Error)
    (base : BaseSpec → parser.Section → String → List (Op δ) → Error × List (Op δ))
    (sm : Server → models.Server × Error) (tm : ServerTemplate → models.ServerTemplate × Error)
    (ss : models.Server → δ) (st : models.ServerTemplate → δ) (s : parser.Section)
    (n a : String) (d : δ) (i : Nat) (l : List (Op δ)) :
    (recorder accept base sm tm ss st).Insert s n a d i l
      = (accept l (.Insert s n a d i), l ++ [.Insert s n a d i]) :=
  rfl

theorem addServers_ok {δ : Type} (em : Emitter (List (Op δ)) δ) (name : String)
    (hrec : ∀ s n a d i l, em.Insert s n a d i l = (none, l ++ [.Insert s n a d i]))
    (servers : List Server) (hok : ∀ x ∈ servers, (em.ServerModel x).2 = none) (idx : Nat)
    (log : List (Op δ)) :
    addServers em name servers idx log = (none, log ++ serverInserts em name servers idx) := by
  induction servers generalizing idx log with
  | nil => simp only [addServers, serverInserts, List.append_nil]
  | cons x rest ih =>
    have hx : (serverModel em x).2 = none := by
      rw [serverModel_snd]; exact hok x (List.mem_cons_self _ _)
    rcases hm : serverModel em x with ⟨m, e⟩
    rw [hm] at hx
    dsimp only at hx
    subst hx
    simp only [addServers, hm, hrec, serverInserts]
    rw [ih (fun y hy => hok y (List.mem_cons_of_mem _ hy)), List.append_assoc]
    rfl

theorem addServerTemplates_ok {δ : Type} (em : Emitter (List (Op δ)) δ) (name : String)
    (hrec : ∀ s n a d i l, em.Insert s n a d i l = (none, l ++ [.Insert s n a d i]))
    (templates : List ServerTemplate)
    (hok : ∀ x ∈ templates, (em.ServerTemplateModel x).2 = none) (idx : Nat)
    (log : List (Op δ)) :
    addServerTemplates em name templates idx log
      = (none, log ++ templateInserts em name templates idx) := by
  induction templates generalizing idx log with
  | nil => simp only [addServerTemplates, templateInserts, List.append_nil]
  | cons x rest ih =>
    have hx : (em.ServerTemplateModel x).2 = none := hok x (List.mem_cons_self _ _)
    rcases hm : em.ServerTemplateModel x with ⟨m, e⟩
    rw [hm] at hx
    dsimp only at hx
    subst hx
    simp only [addServerTemplates, hm, hrec, templateInserts]
    rw [ih (fun y hy => hok y (List.mem_cons_of_mem _ hy)), List.append_assoc]
    rfl

theorem addServers_fail {δ : Type} (em : Emitter (List (Op δ)) δ) (name : String)
    (hrec : ∀ s n a d i l, em.Insert s n a d i l = (none, l ++ [.Insert s n a d i]))
    (pre post : List Server) (x : Server) (e : String)
    (hok : ∀ y ∈ pre, (em.ServerModel y).2 = none) (hfail : (em.ServerModel x).2 = some e)
    (idx : Nat) (log : List (Op δ)) :
    addServers em name (pre ++ x :: post) idx log
      = (some e, log ++ serverInserts em name pre idx) := by
  induction pre generalizing idx log with
  | nil =>
    have hx : (serverModel em x).2 = some e := by rw [serverModel_snd]; exact hfail
    rcases hm : serverModel em x with ⟨m, e2⟩
    rw [hm] at hx
    dsimp only at hx
    subst hx
    simp only [List.nil_append, addServers, hm, serverInserts, List.append_nil]
  | cons y rest ih =>
    have hy : (serverModel em y).2 = none := by
      rw [serverModel_snd]; exact hok y (List.mem_cons_self _ _)
    rcases hm : serverModel em y with ⟨m, e2⟩
    rw [hm] at hy
    dsimp only at hy
    subst hy
    rw [List.cons_append]
    simp only [addServers, hm, hrec, serverInserts]
    rw [ih (fun z hz => hok z (List.mem_cons_of_mem _ hz)), List.append_assoc]
    rfl

theorem addServers_prefix {δ : Type} (em : Emitter (List (Op δ)) δ) (name : String)
    (hrec : ∀ s n a d i l, (em.Insert s n a d i l).2 = l ++ [.Insert s n a d i])
    (pre post : List Server) (x : Server) (e : String)
    (hok : ∀ y ∈ pre, (em.ServerModel y).2 = none) (hfail : (em.ServerModel x).2 = some e)
    (idx : Nat) (log : List (Op δ)) :
    (addServers em name (pre ++ x :: post) idx log).1 ≠ none ∧
      ∃ k, k ≤ pre.length ∧
        (addServers em name (pre ++ x :: post) idx log).2
          = log ++ (serverInserts em name pre idx).take k := by
  induction pre generalizing idx log with
  | nil =>
    have hx : (serverModel em x).2 = some e := by rw [serverModel_snd]; exact hfail
    rcases hm : serverModel em x with ⟨m, e2⟩
    rw [hm] at hx
    dsimp only at hx
    subst hx
    simp only [List.nil_append, addServers, hm]
    exact ⟨Option.some_ne_none _, 0, Nat.le_refl _, by simp⟩
  | cons y rest ih =>
    have hy : (serverModel em y).2 = none := by
      rw [serverModel_snd]; exact hok y (List.mem_cons_self _ _)
    rcases hm : serverModel em y with ⟨m, e2⟩
    rw [hm] at hy
    dsimp only at hy
    subst hy
    have hdata : (serverModel em y).1 = m := by rw [hm]
    rcases hi : em.Insert .Backends name "server" (em.SerializeServer m) idx log
      with ⟨_ | e3, log2⟩
    · have hlog : log2 = log ++ [.Insert .Backends name "server" (em.SerializeServer m) idx] := by
        have := hrec .Backends name "server" (em.SerializeServer m) idx log
        rw [hi] at this
        exact this
      obtain ⟨h1, k, hk, h2⟩ := ih (fun z hz => hok z (List.mem_cons_of_mem _ hz)) (idx + 1) log2
      rw [List.cons_append]
      simp only [addServers, hm, hi]
      refine ⟨h1, k + 1, by simp only [List.length_cons]; omega, ?_⟩
      rw [h2, hlog]
      simp only [serverInserts, hdata, List.take_succ_cons, List.append_assoc,
        List.singleton_append]
    · have hlog : log2 = log ++ [.Insert .Backends name "server" (em.SerializeServer m) idx] := by
        have := hrec .Backends name "server" (em.SerializeServer m) idx log
        rw [hi] at this
        exact this
      rw [List.cons_append]
      simp only [addServers, hm, hi]
      refine ⟨Option.some_ne_none _, 1, by simp only [List.length_cons]; omega, ?_⟩
      rw [hlog]
      simp only [serverInserts, hdata, List.take_succ_cons, List.take_zero]


theorem openSection_recorder {δ : Type} (c : Collaborators)
    (accept : List (Op δ) → Op δ → Error)
    (base : BaseSpec → parser.Section → String → List (Op δ) → Error × List (Op δ))
    (sm : Server → models.Server × Error) (tm : ServerTemplate → models.ServerTemplate × Error)
    (ss : models.Server → δ) (st : models.ServerTemplate → δ)
    (haccept : ∀ l op, accept l op = none) (b : Backend) (log : List (Op δ))
    (hmodel : (b.Model c).2 = none) :
    b.openSection c (recorder accept base sm tm ss st) log
      = base b.Spec.toBaseSpec .Backends b.Name
          (log ++ [.SectionsCreate .Backends b.Name,
            .CreateEditSection (b.Model c).1 .Backends b.Name]) := by
  rcases hm : b.Model c with ⟨m, e⟩
  rw [hm] at hmodel
  dsimp only at hmodel
  subst hmodel
  simp only [Backend.openSection, recorder, haccept, hm, List.append_assoc, List.singleton_append]

/-- C9: for every Backend with N servers and M server templates whose builders all succeed
(the model builder, the base settings, every server and every template) and a recording
document that accepts every operation, `AddToParser` succeeds and, after the operations of
the base settings, issues exactly N "server" inserts followed by exactly M "server-template"
inserts; the i-th server insert carries the serialization of the i-th server at index i and
the j-th template insert the serialization of the j-th template at index j. -/
theorem AddToParser_inserts_in_order {δ : Type} (c : Collaborators)
    (accept : List (Op δ) → Op δ → Error)
    (base : BaseSpec → parser.Section → String → List (Op δ) → Error × List (Op δ))
    (sm : Server → models.Server × Error) (tm : ServerTemplate → models.ServerTemplate × Error)
    (ss : models.Server → δ) (st : models.ServerTemplate → δ)
    (em : Emitter (List (Op δ)) δ) (hem : em = recorder accept base sm tm ss st)
    (b : Backend) (log : List (Op δ))
    (haccept : ∀ l op, accept l op = none)
    (hmodel : (b.Model c).2 = none)
    (hbase : (base b.Spec.toBaseSpec .Backends b.Name
      (log ++ [.SectionsCreate .Backends b.Name,
        .CreateEditSection (b.Model c).1 .Backends b.Name])).1 = none)
    (hservers : ∀ s ∈ b.Spec.Servers, (sm s).2 = none)
    (htemplates : ∀ t ∈ b.Spec.ServerTemplates, (tm t).2 = none) :
    b.AddToParser c em log
        = (none,
            (base b.Spec.toBaseSpec .Backends b.Name
              (log ++ [.SectionsCreate .Backends b.Name,
                .CreateEditSection (b.Model c).1 .Backends b.Name])).2
              ++ serverInserts em b.Name b.Spec.Servers 0
              ++ templateInserts em b.Name b.Spec.ServerTemplates 0) ∧
      (serverInserts em b.Name b.Spec.Servers 0).length = b.Spec.Servers.length ∧
      (templateInserts em b.Name b.Spec.ServerTemplates 0).length
        = b.Spec.ServerTemplates.length ∧
      (∀ (i : Nat) (s : Server), b.Spec.Servers[i]? = some s →
        (serverInserts em b.Name b.Spec.Servers 0)[i]?
          = some (Op.Insert .Backends b.Name "server" (ss (serverModel em s).1) i)) ∧
      (∀ (j : Nat) (t : ServerTemplate), b.Spec.ServerTemplates[j]? = some t →
        (templateInserts em b.Name b.Spec.ServerTemplates 0)[j]?
          = some (Op.Insert .Backends b.Name "server-template" (st (tm t).1) j)) := by
  subst hem
  have hrec : ∀ s n a d i l, (recorder accept base sm tm ss st).Insert s n a d i l
      = (none, l ++ [.Insert s n a d i]) := by
    intro s n a d i l
    rw [recorder_Insert, haccept]
  refine ⟨?_, serverInserts_length _ _ _ _, templateInserts_length _ _ _ _, ?_, ?_⟩
  · unfold Backend.AddToParser
    rw [openSection_recorder c accept base sm tm ss st haccept b log hmodel]
    rcases hb : base b.Spec.toBaseSpec .Backends b.Name
      (log ++ [.SectionsCreate .Backends b.Name,
        .CreateEditSection (b.Model c).1 .Backends b.Name]) with ⟨e, log2⟩
    rw [hb] at hbase
    dsimp only at hbase
    subst hbase
    simp only [addServers_ok _ b.Name hrec b.Spec.Servers hservers,
      addServerTemplates_ok _ b.Name hrec b.Spec.ServerTemplates htemplates, List.append_assoc,
      hb]
  · intro i s h
    have := serverInserts_getElem? (recorder accept base sm tm ss st) b.Name b.Spec.Servers 0 i s h
    rw [Nat.zero_add] at this
    exact this
  · intro j t h
    have := templateInserts_getElem? (recorder accept base sm tm ss st) b.Name
      b.Spec.ServerTemplates 0 j t h
    rw [Nat.zero_add] at this
    exact this

theorem AddToParser_inserts_in_order_witness :
    Backend.AddToParser stubCollaborators (stubEmitter acceptAll) serversBackend []
      = (none,
          [.SectionsCreate .Backends "foo",
            .CreateEditSection { Name := "foo" } .Backends "foo",
            .Insert .Backends "foo" "server" "server01 localhost verify= alpn=" 0,
            .Insert .Backends "foo" "server" "server02 localhost verify= alpn=" 1,
            .Insert .Backends "foo" "server-template" "srv google.com" 0]) :=
  (AddToParser_inserts_in_order stubCollaborators acceptAll stubBase stubServerModel
    stubServerTemplateModel stubSerializeServer stubSerializeServerTemplate
    (stubEmitter acceptAll) rfl serversBackend [] (fun _ _ => rfl) (by decide) (by decide)
    (by decide) (by decide)).1.trans (by decide)

/-- Counterexample to C10: the server at position 0 of a Backend is the first (and only)
fragment whose builder fails, yet on a document that already holds the section
`AddToParser` returns the error of the document, not the error of the builder; and on
`twoModesBackend` extended with that server it returns the error of `Model`. -/
theorem AddToParser_failing_server_counterexample :
    (stubServerModel { Name := "server", Port := 80 }).2 = some "address in body is required" ∧
      (Backend.Model stubCollaborators
        { Name := "foo", Spec := { Servers := [{ Name := "server", Port := 80 }] } }).2 = none ∧
      (Backend.AddToParser stubCollaborators (stubEmitter rejectDuplicate)
        { Name := "foo", Spec := { Servers := [{ Name := "server", Port := 80 }] } }
        [.SectionsCreate .Backends "foo"]).1 = some "section already exists" ∧
      (Backend.AddToParser stubCollaborators (stubEmitter acceptAll)
        { twoModesBackend with
          Spec := { twoModesBackend.Spec with Servers := [{ Name := "server", Port := 80 }] } }
        []).1 = some "you can only select one cookie mode" := by
  decide

/-- C10 (amended): for every Backend in which the server at position `pre.length` is the
first whose builder fails, `AddToParser` on a recording document returns an error and issues
no insert for that server, for any later server or for any server template: the inserts it
issues are an initial part of the inserts of the servers before it. When the steps before
the server loop have succeeded and the document accepts the inserts, the error is the error
of that builder and exactly the servers before it have been inserted, in order. -/
theorem AddToParser_stops_at_failing_server {δ : Type} (c : Collaborators)
    (accept : List (Op δ) → Op δ → Error)
    (base : BaseSpec → parser.Section → String → List (Op δ) → Error × List (Op δ))
    (sm : Server → models.Server × Error) (tm : ServerTemplate → models.ServerTemplate × Error)
    (ss : models.Server → δ) (st : models.ServerTemplate → δ)
    (em : Emitter (List (Op δ)) δ) (hem : em = recorder accept base sm tm ss st)
    (b : Backend) (log : List (Op δ)) (pre post : List Server) (x : Server) (e : String)
    (hsplit : b.Spec.Servers = pre ++ x :: post)
    (hpre : ∀ y ∈ pre, (sm y).2 = none) (hfail : (sm x).2 = some e) :
    (b.AddToParser c em log).1 ≠ none ∧
      (∃ k, k ≤ pre.length ∧
        (b.AddToParser c em log).2
          = (b.openSection c em log).2 ++ (serverInserts em b.Name pre 0).take k) ∧
      ((b.openSection c em log).1 = none →
        (∀ l s n a d i, accept l (.Insert s n a d i) = none) →
        b.AddToParser c em log
          = (some e, (b.openSection c em log).2 ++ serverInserts em b.Name pre 0)) := by
  subst hem
  unfold Backend.AddToParser
  rcases ho : b.openSection c (recorder accept base sm tm ss st) log with ⟨_ | e0, log1⟩
  · dsimp only
    rw [hsplit]
    obtain ⟨h1, k, hk, h2⟩ := addServers_prefix (recorder accept base sm tm ss st) b.Name
      (fun s n a d i l => by rw [recorder_Insert]) pre post x e hpre hfail 0 log1
    rcases ha : addServers (recorder accept base sm tm ss st) b.Name (pre ++ x :: post) 0 log1
      with ⟨_ | e1, log2⟩
    · rw [ha] at h1; exact absurd rfl h1
    · rw [ha] at h2
      refine ⟨Option.some_ne_none _, ⟨k, hk, h2⟩, ?_⟩
      intro _ haccept
      have hf := addServers_fail (recorder accept base sm tm ss st) b.Name
        (fun s n a d i l => by rw [recorder_Insert, haccept]) pre post x e hpre hfail 0 log1
      rw [ha] at hf
      exact hf
  · refine ⟨Option.some_ne_none _, ⟨0, Nat.zero_le _, by simp⟩, fun h => (nomatch h)⟩

theorem AddToParser_stops_at_failing_server_witness :
    Backend.AddToParser stubCollaborators (stubEmitter acceptAll) noAddressBackend []
      = (some "address in body is required",
          [.SectionsCreate .Backends "foo",
            .CreateEditSection { Name := "foo" } .Backends "foo",
            .Insert .Backends "foo" "server" "server01 localhost verify= alpn=" 0]) :=
  ((AddToParser_stops_at_failing_server stubCollaborators acceptAll stubBase stubServerModel
    stubServerTemplateModel stubSerializeServer stubSerializeServerTemplate
    (stubEmitter acceptAll) rfl noAddressBackend []
    [{ Name := "server01", Port := 80, Address := "localhost" }]
    [{ Name := "server03", Port := 82, Address := "localhost" }]
    { Name := "server", Port := 80 } "address in body is required" rfl (by decide)
    (by decide)).2.2 (by decide) (fun _ _ _ _ _ _ => rfl)).trans (by decide)


/-- C11: for every Backend that passes the cookie-mode check and the timeout-key check,
`Backend.Model` returns the assembled model together with exactly the result of the schema
validator on that model: it succeeds if and only if the validator accepts, and on rejection
the error returned is the error of the validator, unchanged. -/
theorem Model_returns_validator_result (c : Collaborators) (b : Backend)
    (hmode : ∀ ck, b.Spec.Cookie = some ck → ck.Mode.flagsSet ≤ 1)
    (hkeys : ∀ kv ∈ b.Spec.Timeouts, kv.1 ∈ timeoutNames) :
    (∃ m, b.modelCookie (b.modelSettings c) = .ok m ∧
        (b.Model c).1 = modelErrorFiles c b.Spec.ErrorFiles (modelTimeouts b.Spec.Timeouts m).1) ∧
      (b.Model c).2 = c.Validate (b.Model c).1 ∧
      ((b.Model c).2 = none ↔ c.Validate (b.Model c).1 = none) ∧
      ∀ e, c.Validate (b.Model c).1 = some e → (b.Model c).2 = some e := by
  obtain ⟨m2, hm2, _⟩ := modelCookie_ok_of_modes b (b.modelSettings c) hmode
  have hM := Model_of_timeouts_ok c b m2 hm2 (modelTimeouts_ok _ m2 hkeys)
  have h2 : (b.Model c).2 = c.Validate (b.Model c).1 := by rw [hM]
  refine ⟨⟨m2, hm2, by rw [hM]⟩, h2, by rw [h2], fun e he => by rw [h2, he]⟩

theorem Model_returns_validator_result_witness :
    (Backend.Model stubCollaborators udpBackend).2
      = some "mode in body should be one of [http tcp]" :=
  (Model_returns_validator_result stubCollaborators udpBackend (fun _ h => nomatch h)
    (by decide)).2.2.2 "mode in body should be one of [http tcp]" (by decide)

theorem tdiv_million_of_nonneg (d : Int) (h : 0 ≤ d) :
    Int.tdiv d 1000000 * 1000000 ≤ d ∧ d < (Int.tdiv d 1000000 + 1) * 1000000 := by
  rw [Int.tdiv_eq_ediv h (by decide)]
  omega

theorem tdiv_million_of_nonpos (d : Int) (h : d ≤ 0) :
    d ≤ Int.tdiv d 1000000 * 1000000 ∧ (Int.tdiv d 1000000 - 1) * 1000000 < d := by
  have hneg : Int.tdiv d 1000000 = -((-d) / 1000000) := by
    have h1 : Int.tdiv (-(-d)) 1000000 = -(Int.tdiv (-d) 1000000) := Int.neg_tdiv (-d) 1000000
    rw [Int.neg_neg] at h1
    have h2 : (0 : Int) ≤ -d := by omega
    rw [h1, Int.tdiv_eq_ediv h2 (by decide)]
  rw [hneg]
  omega

/-- Counterexample to C13: the check timeout of one nanosecond before zero is stored as 0
milliseconds, which is more than the duration: the conversion rounded up. -/
theorem Milliseconds_rounds_up_counterexample :
    (Backend.Model stubCollaborators negativeCheckBackend).1.CheckTimeout = some 0 ∧
      (Backend.Model stubCollaborators negativeCheckBackend).2 = none ∧
      metav1.Duration.Milliseconds (-1) = 0 ∧
      ¬ (metav1.Duration.Milliseconds (-1) * 1000000 ≤ -1) := by
  decide

/-- C13 (amended): a duration `d` given as CheckTimeout or as a Timeouts value is stored as
`d` truncated toward zero to whole milliseconds. For `d ≥ 0` the stored value `m` never
rounds up, `m * 1000000 ≤ d < (m + 1) * 1000000`; for `d ≤ 0` it never rounds down,
`(m - 1) * 1000000 < d ≤ m * 1000000`. -/
theorem Milliseconds_truncates_toward_zero (d : metav1.Duration) :
    (∀ c b, b.Spec.CheckTimeout = some d →
        (Backend.modelSettings c b).CheckTimeout = some (metav1.Duration.Milliseconds d)) ∧
      (∀ model name model2, setTimeout model name d = some model2 →
        timeoutField name model2 = some (metav1.Duration.Milliseconds d)) ∧
      metav1.Duration.Milliseconds d = Int.tdiv d 1000000 ∧
      (0 ≤ d → metav1.Duration.Milliseconds d * 1000000 ≤ d ∧
        d < (metav1.Duration.Milliseconds d + 1) * 1000000) ∧
      (d ≤ 0 → d ≤ metav1.Duration.Milliseconds d * 1000000 ∧
        (metav1.Duration.Milliseconds d - 1) * 1000000 < d) := by
  refine ⟨?_, fun model name model2 h => setTimeout_field_self model model2 name d h, rfl,
    fun h => tdiv_million_of_nonneg d h, fun h => tdiv_million_of_nonpos d h⟩
  intro c b hd
  unfold Backend.modelSettings
  rw [hd]
  dsimp only
  repeat' split
  all_goals rfl

theorem Milliseconds_truncates_toward_zero_witness :
    metav1.Duration.Milliseconds (30 * metav1.Second) * 1000000 ≤ 30 * metav1.Second ∧
      30 * metav1.Second < (metav1.Duration.Milliseconds (30 * metav1.Second) + 1) * 1000000 :=
  (Milliseconds_truncates_toward_zero (30 * metav1.Second)).2.2.2.1 (by decide)


theorem setTimeout_settings (model model2 : models.Backend) (name : String)
    (t : metav1.Duration) (h : setTimeout model name t = some model2) :
    settingsOf model2 = settingsOf model := by
  unfold setTimeout at h
  split_ifs at h <;> cases h <;> rfl

theorem modelTimeouts_settings (l : List (String × metav1.Duration)) (model : models.Backend) :
    settingsOf (modelTimeouts l model).1 = settingsOf model := by
  induction l generalizing model with
  | nil => rfl
  | cons kv rest ih =>
    obtain ⟨name, t⟩ := kv
    cases hs : setTimeout model name t with
    | none => simp only [modelTimeouts, hs]
    | some m2 =>
      simp only [modelTimeouts, hs]
      exact (ih m2).trans (setTimeout_settings model m2 name t hs)

theorem modelErrorFiles_settings (c : Collaborators) (efs : List ErrorFile)
    (model : models.Backend) :
    settingsOf (modelErrorFiles c efs model) = settingsOf model := by
  unfold modelErrorFiles
  induction efs generalizing model with
  | nil => rfl
  | cons ef rest ih =>
    simp only [List.foldl_cons]
    rcases hm : c.ErrorFileModel ef with ⟨m, _ | e⟩
    · exact ih { model with ErrorFiles := model.ErrorFiles ++ [m] }
    · exact ih model

theorem modelCookie_settings (b : Backend) (model m2 : models.Backend)
    (h : b.modelCookie model = .ok m2) : settingsOf m2 = settingsOf model := by
  unfold Backend.modelCookie at h
  split at h
  · cases h; rfl
  · split at h
    · cases h
    · dsimp only at h
      split at h <;> cases h <;> rfl

theorem Model_settings (c : Collaborators) (b : Backend)
    (hmode : ∀ ck, b.Spec.Cookie = some ck → ck.Mode.flagsSet ≤ 1) :
    settingsOf (b.Model c).1 = settingsOf (b.modelSettings c) := by
  obtain ⟨m2, hm2, _⟩ := modelCookie_ok_of_modes b (b.modelSettings c) hmode
  have hs := modelCookie_settings b _ m2 hm2
  cases ht : (modelTimeouts b.Spec.Timeouts m2).2 with
  | none =>
    rw [Model_of_timeouts_ok c b m2 hm2 ht]
    exact ((modelErrorFiles_settings c _ _).trans (modelTimeouts_settings _ m2)).trans hs
  | some e =>
    rw [Model_of_timeouts_err c b m2 e hm2 ht]
    exact (modelTimeouts_settings _ m2).trans hs

theorem modelSettings_values (c : Collaborators) (b : Backend) :
    (b.modelSettings c).Name = b.Name ∧ (b.modelSettings c).Mode = b.Spec.Mode ∧
      (b.modelSettings c).Forwardfor
        = b.Spec.Forwardfor.map (fun ff =>
            { Enabled := if ff.Enabled then some models.ForwardforEnabledEnabled else none
              Except := ff.Except, Header := ff.Header, Ifnone := ff.Ifnone }) ∧
      (b.modelSettings c).HTTPPretendKeepalive
        = (if b.Spec.HTTPPretendKeepalive = some true then
            models.BackendHTTPPretendKeepaliveEnabled else "") ∧
      (b.modelSettings c).Redispatch
        = (if b.Spec.Redispatch = some true then
            some { Enabled := some models.RedispatchEnabledEnabled, Interval := 3 } else none) ∧
      (b.modelSettings c).Balance
        = b.Spec.Balance.map (fun bal => { Algorithm := some (c.ToLower bal.Algorithm) }) := by
  unfold Backend.modelSettings
  dsimp only
  repeat' split
  all_goals simp_all

/-- C14: on `forwardforOffBackend`, whose three booleans are all false, `Backend.Model`
leaves redispatch and http-pretend-keepalive absent from the model, as the claim says, but
not forwarded-for: lines 81-92 build a forwarded-for block without the enabled token, and the
validator rejects the model, so that the Backend fails to compile. -/
theorem Model_forwardfor_false_not_absent :
    forwardforOffBackend.Spec.Forwardfor = some { Enabled := false, Header := "X-Client" } ∧
      (Backend.Model stubCollaborators forwardforOffBackend).1.Redispatch = none ∧
      (Backend.Model stubCollaborators forwardforOffBackend).1.HTTPPretendKeepalive = "" ∧
      (Backend.Model stubCollaborators forwardforOffBackend).1.Forwardfor
        = some { Enabled := none, Header := "X-Client" } ∧
      (Backend.Model stubCollaborators forwardforOffBackend).1.Forwardfor ≠ none ∧
      (Backend.Model stubCollaborators forwardforOffBackend).2
        = some "forwardfor.enabled in body is required" := by
  decide

/-- What lines 81-103 of `Backend.Model` assign, in the model built for a Backend with a
valid cookie mode: redispatch and http-pretend-keepalive carry the sentinel "enabled" when
their boolean is true and are absent when it is false or unset; a forwarded-for block is
built whenever the Forwardfor setting is present, with the enabled token only when the
boolean is true. -/
theorem Model_boolean_settings (c : Collaborators) (b : Backend)
    (hmode : ∀ ck, b.Spec.Cookie = some ck → ck.Mode.flagsSet ≤ 1) :
    (b.Spec.Redispatch = some true →
        (b.Model c).1.Redispatch = some { Enabled := some "enabled", Interval := 3 }) ∧
      (b.Spec.Redispatch ≠ some true → (b.Model c).1.Redispatch = none) ∧
      (b.Spec.HTTPPretendKeepalive = some true →
        (b.Model c).1.HTTPPretendKeepalive = "enabled") ∧
      (b.Spec.HTTPPretendKeepalive ≠ some true → (b.Model c).1.HTTPPretendKeepalive = "") ∧
      (b.Spec.Forwardfor = none → (b.Model c).1.Forwardfor = none) ∧
      (∀ ff, b.Spec.Forwardfor = some ff →
        (b.Model c).1.Forwardfor
          = some { Enabled := if ff.Enabled then some "enabled" else none
                   Except := ff.Except, Header := ff.Header, Ifnone := ff.Ifnone }) := by
  have hS := Model_settings c b hmode
  obtain ⟨_, _, hff, hka, hrd, _⟩ := modelSettings_values c b
  have hF : (b.Model c).1.Forwardfor = (b.modelSettings c).Forwardfor :=
    congrArg (fun s => s.2.2.1) hS
  have hK : (b.Model c).1.HTTPPretendKeepalive = (b.modelSettings c).HTTPPretendKeepalive :=
    congrArg (fun s => s.2.2.2.1) hS
  have hR : (b.Model c).1.Redispatch = (b.modelSettings c).Redispatch :=
    congrArg (fun s => s.2.2.2.2.1) hS
  rw [hF, hK, hR, hff, hka, hrd]
  refine ⟨fun h => by rw [if_pos h]; rfl, fun h => by rw [if_neg h],
    fun h => by rw [if_pos h]; rfl, fun h => by rw [if_neg h],
    fun h => by rw [h]; rfl, fun ff h => by rw [h]; rfl⟩

theorem Model_boolean_settings_enabled :
    (Backend.Model stubCollaborators optionsBackend).1.Redispatch
        = some { Enabled := some "enabled", Interval := 3 } ∧
      (Backend.Model stubCollaborators optionsBackend).1.HTTPPretendKeepalive = "enabled" :=
  have h := Model_boolean_settings stubCollaborators optionsBackend (fun _ h => nomatch h)
  ⟨h.1 rfl, h.2.2.1 rfl⟩


theorem Model_balance_none (c : Collaborators) (b : Backend) (h : b.Spec.Balance = none) :
    (b.Model c).1.Balance = none := by
  rcases cookie_flags_cases b with ⟨ck, hck, h2⟩ | hvalid
  · rw [Model_of_cookie_invalid c b ck hck h2]
  · have hB : (b.Model c).1.Balance = (b.modelSettings c).Balance :=
      congrArg (fun s => s.2.2.2.2.2.2) (Model_settings c b hvalid)
    rw [hB, (modelSettings_values c b).2.2.2.2.2, h]
    rfl

/-- C17: for every Backend with a Balance (and a valid cookie mode, so that a model is
built), the balance algorithm of the model is the algorithm of the spec converted to lower
case by `strings.ToLower`; two Backends that differ only in the letter case of
`Balance.Algorithm`, that is, whose algorithms have the same lower-case form, build
identical models and errors; with no Balance the model has no balance setting. -/
theorem Model_balance_lowercase (c : Collaborators) (b : Backend) :
    (∀ bal, b.Spec.Balance = some bal →
        (∀ ck, b.Spec.Cookie = some ck → ck.Mode.flagsSet ≤ 1) →
        (b.Model c).1.Balance = some { Algorithm := some (c.ToLower bal.Algorithm) }) ∧
      (∀ a1 a2 : String, c.ToLower a1 = c.ToLower a2 →
        Backend.Model c { b with Spec := { b.Spec with Balance := some { Algorithm := a1 } } }
          = Backend.Model c
              { b with Spec := { b.Spec with Balance := some { Algorithm := a2 } } }) ∧
      (b.Spec.Balance = none → (b.Model c).1.Balance = none) := by
  refine ⟨?_, ?_, Model_balance_none c b⟩
  · intro bal hbal hvalid
    have hB : (b.Model c).1.Balance = (b.modelSettings c).Balance :=
      congrArg (fun s => s.2.2.2.2.2.2) (Model_settings c b hvalid)
    rw [hB, (modelSettings_values c b).2.2.2.2.2, hbal]
    rfl
  · intro a1 a2 h
    have hs : Backend.modelSettings c
          { b with Spec := { b.Spec with Balance := some { Algorithm := a1 } } }
        = Backend.modelSettings c
          { b with Spec := { b.Spec with Balance := some { Algorithm := a2 } } } := by
      simp only [Backend.modelSettings, h]
    unfold Backend.Model
    rw [hs]
    rfl

theorem Model_balance_lowercase_witness :
    (Backend.Model stubCollaborators balanceBackend).1.Balance
        = some { Algorithm := some "roundrobin" } ∧
      Backend.Model stubCollaborators
          { balanceBackend with
            Spec := { balanceBackend.Spec with Balance := some { Algorithm := "RoundRobin" } } }
        = Backend.Model stubCollaborators
          { balanceBackend with
            Spec := { balanceBackend.Spec with Balance := some { Algorithm := "ROUNDROBIN" } } } :=
  have h := Model_balance_lowercase stubCollaborators balanceBackend
  ⟨(h.1 { Algorithm := "RoundRobin" } rfl (fun _ h => nomatch h)).trans (by decide),
    h.2.1 "RoundRobin" "ROUNDROBIN" (by decide)⟩


/-- C15: in `AddToParser`, the model of a server whose SSL settings are present with verify
mode exactly "required" is handed to the serializer with `Verify = "required"` and `Alpn`
equal to the ALPN list joined with ","; every other field is as the Server builder returned
it. For a server with no SSL settings or any other verify mode the model handed to the
serializer is exactly the one the builder returned. -/
theorem serverModel_verify_alpn {σ δ : Type} (em : Emitter σ δ) (server : Server) :
    (∀ ssl, server.SSL = some ssl → ssl.Verify = "required" →
        (serverModel em server).1.Verify = "required" ∧
          (serverModel em server).1.Alpn = ",".intercalate ssl.Alpn ∧
          (serverModel em server).1
            = { (em.ServerModel server).1 with
                Verify := "required", Alpn := ",".intercalate ssl.Alpn }) ∧
      ((server.SSL = none ∨ ∃ ssl, server.SSL = some ssl ∧ ssl.Verify ≠ "required") →
        (serverModel em server).1 = (em.ServerModel server).1) ∧
      (∀ name rest idx p, (em.ServerModel server).2 = none →
        addServers em name (server :: rest) idx p
          = match em.Insert .Backends name "server"
                (em.SerializeServer (serverModel em server).1) idx p with
            | (some err, p) => (some err, p)
            | (none, p) => addServers em name rest (idx + 1) p) := by
  refine ⟨?_, ?_, ?_⟩
  · intro ssl hssl hv
    have h : (serverModel em server).1
        = { (em.ServerModel server).1 with
            Verify := "required", Alpn := ",".intercalate ssl.Alpn } := by
      unfold serverModel
      rcases em.ServerModel server with ⟨m, e⟩
      simp only [hssl, hv, if_true]
    exact ⟨by rw [h], by rw [h], h⟩
  · intro h
    unfold serverModel
    rcases em.ServerModel server with ⟨m, e⟩
    rcases h with h | ⟨ssl, hssl, hv⟩
    · simp only [h]
    · simp only [hssl, hv, if_false]
  · intro name rest idx p hok
    have h2 : (serverModel em server).2 = none := by rw [serverModel_snd]; exact hok
    rcases hm : serverModel em server with ⟨m, e⟩
    rw [hm] at h2
    dsimp only at h2
    subst h2
    simp only [addServers, hm]

theorem serverModel_verify_alpn_witness :
    (serverModel (stubEmitter acceptAll) verifiedServer).1.Verify = "required" ∧
      (serverModel (stubEmitter acceptAll) verifiedServer).1.Alpn = "h2,http/1.1" ∧
      (serverModel (stubEmitter acceptAll) unverifiedServer).1
        = ((stubEmitter acceptAll).ServerModel unverifiedServer).1 :=
  have h := (serverModel_verify_alpn (stubEmitter acceptAll) verifiedServer).1
    { Enabled := true, Verify := "required", Alpn := ["h2", "http/1.1"] } rfl rfl
  ⟨h.1, h.2.1.trans (by decide),
    (serverModel_verify_alpn (stubEmitter acceptAll) unverifiedServer).2.1
      (Or.inr ⟨_, rfl, by decide⟩)⟩

/-- C18: for every Backend and document, if the document rejects the creation of the
section, `AddToParser` returns that error and the document is exactly as the rejected
creation left it: no section edit, no base settings and no insert follow. -/
theorem AddToParser_creation_rejected {σ δ : Type} (c : Collaborators) (em : Emitter σ δ)
    (b : Backend) (p : σ) (e : String)
    (hreject : (em.SectionsCreate .Backends b.Name p).1 = some e) :
    b.AddToParser c em p = (some e, (em.SectionsCreate .Backends b.Name p).2) ∧
      b.openSection c em p = (some e, (em.SectionsCreate .Backends b.Name p).2) := by
  unfold Backend.AddToParser Backend.openSection
  rcases hs : em.SectionsCreate .Backends b.Name p with ⟨e0, p1⟩
  rw [hs] at hreject
  dsimp only at hreject
  subst hreject
  exact ⟨rfl, rfl⟩

theorem AddToParser_creation_rejected_witness :
    Backend.AddToParser stubCollaborators (stubEmitter rejectDuplicate) serversBackend
        [.SectionsCreate .Backends "foo"]
      = (some "section already exists",
          [.SectionsCreate .Backends "foo", .SectionsCreate .Backends "foo"]) :=
  (AddToParser_creation_rejected stubCollaborators (stubEmitter rejectDuplicate) serversBackend
    [.SectionsCreate .Backends "foo"] "section already exists" (by decide)).1.trans (by decide)


theorem foldl_Attrs (l : List String) (m : models.Cookie) :
    l.foldl (fun ck attr => { ck with Attrs := ck.Attrs ++ [{ Value := attr }] }) m
      = { m with Attrs := m.Attrs ++ l.map (fun a => { Value := a }) } := by
  induction l generalizing m with
  | nil => simp only [List.foldl_nil, List.map_nil, List.append_nil]
  | cons a rest ih =>
    simp only [List.foldl_cons, ih, List.map_cons, List.append_assoc, List.singleton_append]

theorem foldl_Domains (l : List String) (m : models.Cookie) :
    l.foldl (fun ck d => { ck with Domains := ck.Domains ++ [{ Value := d }] }) m
      = { m with Domains := m.Domains ++ l.map (fun a => { Value := a }) } := by
  induction l generalizing m with
  | nil => simp only [List.foldl_nil, List.map_nil, List.append_nil]
  | cons a rest ih =>
    simp only [List.foldl_cons, ih, List.map_cons, List.append_assoc, List.singleton_append]

theorem cookieModel_eq (ck : Cookie) :
    cookieModel ck
      = { Attrs := ck.Attribute.map (fun a => { Value := a })
          Domains := ck.Domain.map (fun d => { Value := d })
          Dynamic := BoolDeref ck.Dynamic false
          Httponly := BoolDeref ck.HTTPOnly false
          Indirect := BoolDeref ck.Indirect false
          Maxidle := ck.MaxIdle
          Maxlife := ck.MaxLife
          Name := some (hash.GetMD5Hash ck.Name)
          Nocache := BoolDeref ck.NoCache false
          Postonly := BoolDeref ck.PostOnly false
          Preserve := BoolDeref ck.Preserve false
          Secure := BoolDeref ck.Secure false
          Type_ := "" } := by
  unfold cookieModel
  simp only [foldl_Attrs, foldl_Domains, List.nil_append]

theorem Model_ok_cookie_mode (c : Collaborators) (b : Backend) (hok : (b.Model c).2 = none) :
    ∀ ck, b.Spec.Cookie = some ck → ck.Mode.flagsSet ≤ 1 := by
  rcases cookie_flags_cases b with ⟨ck, hck, h2⟩ | hvalid
  · rw [Model_of_cookie_invalid c b ck hck h2] at hok
    cases hok
  · exact hvalid

/-- C16: for every Backend with a Cookie on which `Backend.Model` succeeds, the domain list
and the attribute list of the model's cookie have the same length and the same values in the
same order as the Domain and Attribute lists of the spec, maxidle and maxlife are copied
unchanged, and each of the flags httponly, indirect, nocache, postonly, preserve, secure,
dynamic is true exactly when the corresponding flag of the spec is set to true. -/
theorem Model_cookie_fields (c : Collaborators) (b : Backend) (ck : Cookie)
    (hck : b.Spec.Cookie = some ck) (hok : (b.Model c).2 = none) :
    ∃ mck, (b.Model c).1.Cookie = some mck ∧
      mck.Domains.length = ck.Domain.length ∧
      mck.Domains.map (fun d => d.Value) = ck.Domain ∧
      mck.Attrs.length = ck.Attribute.length ∧
      mck.Attrs.map (fun a => a.Value) = ck.Attribute ∧
      mck.Maxidle = ck.MaxIdle ∧ mck.Maxlife = ck.MaxLife ∧
      (mck.Httponly = true ↔ ck.HTTPOnly = some true) ∧
      (mck.Indirect = true ↔ ck.Indirect = some true) ∧
      (mck.Nocache = true ↔ ck.NoCache = some true) ∧
      (mck.Postonly = true ↔ ck.PostOnly = some true) ∧
      (mck.Preserve = true ↔ ck.Preserve = some true) ∧
      (mck.Secure = true ↔ ck.Secure = some true) ∧
      (mck.Dynamic = true ↔ ck.Dynamic = some true) := by
  obtain ⟨m2, hm2, hcookie, _, _⟩ :=
    modelCookie_valid b (b.modelSettings c) ck hck (Model_ok_cookie_mode c b hok ck hck)
  have hC := (Model_frame_of_cookie_ok c b m2 hm2).1.trans hcookie
  rw [cookieModel_eq] at hC
  refine ⟨_, hC, ?_, ?_, ?_, ?_, rfl, rfl, BoolDeref_false_eq_true _, BoolDeref_false_eq_true _,
    BoolDeref_false_eq_true _, BoolDeref_false_eq_true _, BoolDeref_false_eq_true _,
    BoolDeref_false_eq_true _, BoolDeref_false_eq_true _⟩
  · simp only [List.length_map]
  · simp only [List.map_map, Function.comp_def, List.map_id']
  · simp only [List.length_map]
  · simp only [List.map_map, Function.comp_def, List.map_id']

theorem Model_cookie_fields_witness :
    ∃ mck, (Backend.Model stubCollaborators cookieBackend).1.Cookie = some mck ∧
      mck.Domains.map (fun d => d.Value) = ["domain1", ".openshift"] ∧
      mck.Attrs.map (fun a => a.Value) = ["SameSite=None"] ∧
      mck.Maxidle = 120 ∧ mck.Maxlife = 45 :=
  (Model_cookie_fields stubCollaborators cookieBackend _ rfl rfl).elim
    fun mck h => ⟨mck, h.1, h.2.2.1, h.2.2.2.2.1, h.2.2.2.2.2.1, h.2.2.2.2.2.2.1⟩


theorem Model_timeoutField_absent (c : Collaborators) (b : Backend)
    (hkeys : ∀ kv ∈ b.Spec.Timeouts, kv.1 ∈ timeoutNames)
    (hmode : ∀ ck, b.Spec.Cookie = some ck → ck.Mode.flagsSet ≤ 1)
    (k : String) (habs : k ∉ b.Spec.Timeouts.map Prod.fst) :
    timeoutField k (b.Model c).1 = timeoutField k (b.modelSettings c) := by
  obtain ⟨m2, hm2, hfield⟩ := modelCookie_ok_of_modes b (b.modelSettings c) hmode
  rw [Model_of_timeouts_ok c b m2 hm2 (modelTimeouts_ok _ m2 hkeys),
    (modelErrorFiles_frame c _ _).2.2 k, modelTimeouts_field_absent _ m2 k habs, hfield k]

theorem modelSettings_CheckTimeout (c : Collaborators) (b : Backend) :
    (b.modelSettings c).CheckTimeout = b.Spec.CheckTimeout.map metav1.Duration.Milliseconds := by
  unfold Backend.modelSettings
  dsimp only
  repeat' split
  all_goals simp_all

/-- C20: in the model built for a Backend (valid cookie mode, known and distinct timeout
names), when both the CheckTimeout field and a "check" entry of Timeouts are set the check
timeout is the millisecond value of the "check" entry; when only CheckTimeout is set it is
the millisecond value of CheckTimeout; when neither is set it is absent. -/
theorem Model_check_timeout (c : Collaborators) (b : Backend)
    (hkeys : ∀ kv ∈ b.Spec.Timeouts, kv.1 ∈ timeoutNames)
    (hmode : ∀ ck, b.Spec.Cookie = some ck → ck.Mode.flagsSet ≤ 1)
    (hnd : (b.Spec.Timeouts.map Prod.fst).Nodup) :
    (∀ d0 d, b.Spec.CheckTimeout = some d0 → ("check", d) ∈ b.Spec.Timeouts →
        (b.Model c).1.CheckTimeout = some (metav1.Duration.Milliseconds d)) ∧
      (∀ d0, b.Spec.CheckTimeout = some d0 → "check" ∉ b.Spec.Timeouts.map Prod.fst →
        (b.Model c).1.CheckTimeout = some (metav1.Duration.Milliseconds d0)) ∧
      (b.Spec.CheckTimeout = none → "check" ∉ b.Spec.Timeouts.map Prod.fst →
        (b.Model c).1.CheckTimeout = none) := by
  refine ⟨?_, ?_, ?_⟩
  · intro _ d _ hd
    exact (Model_timeoutField c b hkeys hmode hnd).1 "check" d hd
  · intro d0 h0 habs
    have h := Model_timeoutField_absent c b hkeys hmode "check" habs
    rw [show timeoutField "check" (b.modelSettings c) = (b.modelSettings c).CheckTimeout from rfl,
      modelSettings_CheckTimeout, h0] at h
    exact h
  · intro h0 habs
    have h := Model_timeoutField_absent c b hkeys hmode "check" habs
    rw [show timeoutField "check" (b.modelSettings c) = (b.modelSettings c).CheckTimeout from rfl,
      modelSettings_CheckTimeout, h0] at h
    exact h

theorem Model_check_timeout_witness :
    (Backend.Model stubCollaborators checkTimeoutBackend).1.CheckTimeout = some 30000 :=
  ((Model_check_timeout stubCollaborators checkTimeoutBackend (by decide)
    (fun _ h => nomatch h) (by decide)).1 (5 * metav1.Second) (30 * metav1.Second) rfl
    (by decide)).trans (by decide)

theorem openSection_recorder_inserts {δ : Type} (c : Collaborators)
    (accept : List (Op δ) → Op δ → Error)
    (base : BaseSpec → parser.Section → String → List (Op δ) → Error × List (Op δ))
    (sm : Server → models.Server × Error) (tm : ServerTemplate → models.ServerTemplate × Error)
    (ss : models.Server → δ) (st : models.ServerTemplate → δ) (b : Backend)
    (log : List (Op δ))
    (hbase : ∀ l, (base b.Spec.toBaseSpec .Backends b.Name l).2.filter Op.isInsert
      = l.filter Op.isInsert) :
    (b.openSection c (recorder accept base sm tm ss st) log).2.filter Op.isInsert
      = log.filter Op.isInsert := by
  unfold Backend.openSection
  simp only [recorder]
  rcases accept log (.SectionsCreate .Backends b.Name) with _ | e
  · dsimp only
    rcases b.Model c with ⟨m, _ | e⟩
    · dsimp only
      split
      · next err p heq =>
        simp only [Prod.mk.injEq] at heq
        obtain ⟨_, rfl⟩ := heq
        simp [Op.isInsert]
      · next p heq =>
        simp only [Prod.mk.injEq] at heq
        obtain ⟨_, rfl⟩ := heq
        rw [hbase]
        simp [Op.isInsert]
    · simp [Op.isInsert]
  · simp [Op.isInsert]

/-- C19: for every Backend whose optional settings are all unset, the model built by
`Backend.Model` has Name and Mode copied from the Backend and every other field at its empty
value; with no servers and no templates `AddToParser` does nothing beyond creating and
editing the section and emitting the base settings, so that on a recording document on which
the base settings (for which this Backend has nothing but the mode) issue no insert, no
insert at all is issued. -/
theorem Model_of_unset_settings (c : Collaborators) (b : Backend)
    (hcheck : b.Spec.CheckTimeout = none) (hff : b.Spec.Forwardfor = none)
    (hka : b.Spec.HTTPPretendKeepalive = none) (hrd : b.Spec.Redispatch = none)
    (hht : b.Spec.HashType = none) (hbal : b.Spec.Balance = none)
    (hck : b.Spec.Cookie = none) (hts : b.Spec.Timeouts = [])
    (hef : b.Spec.ErrorFiles = []) :
    b.Model c = ({ Name := b.Name, Mode := b.Spec.Mode },
        c.Validate { Name := b.Name, Mode := b.Spec.Mode }) ∧
      b.Spec.toBaseSpec = { Mode := b.Spec.Mode } ∧
      (b.Spec.Servers = [] → b.Spec.ServerTemplates = [] →
        (∀ (σ δ : Type) (em : Emitter σ δ) (p : σ),
          b.AddToParser c em p = b.openSection c em p) ∧
        ∀ (δ : Type) (accept : List (Op δ) → Op δ → Error)
          (base : BaseSpec → parser.Section → String → List (Op δ) → Error × List (Op δ))
          (sm : Server → models.Server × Error)
          (tm : ServerTemplate → models.ServerTemplate × Error)
          (ss : models.Server → δ) (st : models.ServerTemplate → δ) (log : List (Op δ)),
          (∀ l, (base b.Spec.toBaseSpec .Backends b.Name l).2.filter Op.isInsert
            = l.filter Op.isInsert) →
          (b.AddToParser c (recorder accept base sm tm ss st) log).2.filter Op.isInsert
            = log.filter Op.isInsert) := by
  have hopen : b.Spec.Servers = [] → b.Spec.ServerTemplates = [] →
      ∀ (σ δ : Type) (em : Emitter σ δ) (p : σ),
        b.AddToParser c em p = b.openSection c em p := by
    intro hs ht σ δ em p
    unfold Backend.AddToParser
    rw [hs, ht]
    rcases b.openSection c em p with ⟨_ | e, p1⟩
    · rfl
    · rfl
  refine ⟨?_, ?_, fun hs ht => ⟨hopen hs ht, ?_⟩⟩
  · simp only [Backend.Model, Backend.modelSettings, Backend.modelCookie, modelTimeouts,
      modelErrorFiles, hcheck, hff, hka, hrd, hht, hbal, hck, hts, hef, List.foldl_nil]
    simp
  · rcases b with ⟨name, ⟨⟨mode, ff, ka, ts, ef⟩, ct, sv, stp, bal, hr, rd, ht, ck⟩⟩
    simp only at hff hka hts hef
    subst hff hka hts hef
    rfl
  · intro δ accept base sm tm ss st log hbase
    rw [hopen hs ht]
    exact openSection_recorder_inserts c accept base sm tm ss st b log hbase

theorem Model_of_unset_settings_witness :
    Backend.Model stubCollaborators minimalBackend = ({ Name := "foo" }, none) ∧
      (Backend.AddToParser stubCollaborators (stubEmitter acceptAll) minimalBackend
        []).2.filter Op.isInsert = [] :=
  have h := Model_of_unset_settings stubCollaborators minimalBackend rfl rfl rfl rfl rfl rfl rfl
    rfl rfl
  ⟨h.1, (h.2.2 rfl rfl).2 String acceptAll stubBase stubServerModel stubServerTemplateModel
    stubSerializeServer stubSerializeServerTemplate [] (fun _ => rfl)⟩


theorem setTimeout_comm (model : models.Backend) (k1 k2 : String) (t1 t2 : metav1.Duration)
    (h1 : k1 ∈ timeoutNames) (h2 : k2 ∈ timeoutNames) (hne : k1 ≠ k2) :
    (setTimeout model k1 t1).bind (fun m => setTimeout m k2 t2)
      = (setTimeout model k2 t2).bind (fun m => setTimeout m k1 t1) := by
  simp only [timeoutNames, List.mem_cons, List.mem_singleton, List.mem_nil_iff, or_false]
    at h1 h2
  rcases h1 with rfl | rfl | rfl | rfl | rfl | rfl | rfl <;>
    rcases h2 with rfl | rfl | rfl | rfl | rfl | rfl | rfl <;>
      first
      | exact absurd rfl hne
      | rfl

theorem modelTimeouts_cons_bind (kv : String × metav1.Duration)
    (rest : List (String × metav1.Duration)) (model : models.Backend)
    (hk : kv.1 ∈ timeoutNames) :
    ∃ m2, setTimeout model kv.1 kv.2 = some m2 ∧
      modelTimeouts (kv :: rest) model = modelTimeouts rest m2 := by
  obtain ⟨name, t⟩ := kv
  cases hs : setTimeout model name t with
  | none => exact absurd hk ((setTimeout_eq_none_iff model name t).mp hs)
  | some m2 => exact ⟨m2, rfl, by simp only [modelTimeouts, hs]⟩

theorem modelTimeouts_perm (l1 l2 : List (String × metav1.Duration)) (hperm : l1.Perm l2)
    (hkeys : ∀ kv ∈ l1, kv.1 ∈ timeoutNames) (hnd : (l1.map Prod.fst).Nodup)
    (model : models.Backend) : modelTimeouts l1 model = modelTimeouts l2 model := by
  induction hperm generalizing model with
  | nil => rfl
  | @cons x la lb _ ih =>
    have hx : x.1 ∈ timeoutNames := hkeys x (List.mem_cons_self _ _)
    obtain ⟨ma, hsa, ha⟩ := modelTimeouts_cons_bind x la model hx
    obtain ⟨mb, hsb, hb⟩ := modelTimeouts_cons_bind x lb model hx
    rw [hsa] at hsb
    cases hsb
    rw [ha, hb]
    simp only [List.map_cons, List.nodup_cons] at hnd
    exact ih (fun kv hkv => hkeys kv (List.mem_cons_of_mem _ hkv)) hnd.2 ma
  | swap x y l =>
    have hy : y.1 ∈ timeoutNames := hkeys y (List.mem_cons_self _ _)
    have hx : x.1 ∈ timeoutNames := hkeys x (List.mem_cons_of_mem _ (List.mem_cons_self _ _))
    have hne : y.1 ≠ x.1 := by
      simp only [List.map_cons, List.nodup_cons, List.mem_cons, not_or] at hnd
      exact hnd.1.1
    obtain ⟨my, hsy, h1⟩ := modelTimeouts_cons_bind y (x :: l) model hy
    obtain ⟨myx, hsyx, h2⟩ := modelTimeouts_cons_bind x l my hx
    obtain ⟨mx, hsx, h3⟩ := modelTimeouts_cons_bind x (y :: l) model hx
    obtain ⟨mxy, hsxy, h4⟩ := modelTimeouts_cons_bind y l mx hy
    have hc := setTimeout_comm model y.1 x.1 y.2 x.2 hy hx hne
    rw [hsy, hsx] at hc
    simp only [Option.some_bind] at hc
    rw [hsyx, hsxy] at hc
    cases hc
    rw [h1, h2, h3, h4]
  | trans h12 _ ih1 ih2 =>
    rw [ih1 hkeys hnd model]
    exact ih2 (fun kv hkv => hkeys kv (h12.mem_iff.mpr hkv))
      ((h12.map Prod.fst).nodup_iff.mp hnd) model

theorem Model_error_of_unknown (c : Collaborators) (b : Backend)
    (hbad : ∃ kv ∈ b.Spec.Timeouts, kv.1 ∉ timeoutNames) : (b.Model c).2 ≠ none := by
  rcases cookie_flags_cases b with ⟨ck, hck, h2⟩ | hvalid
  · rw [Model_of_cookie_invalid c b ck hck h2]
    exact Option.some_ne_none _
  · obtain ⟨m2, hm2, _⟩ := modelCookie_ok_of_modes b (b.modelSettings c) hvalid
    obtain ⟨kv, _, _, he⟩ := modelTimeouts_unknown b.Spec.Timeouts m2 hbad
    rw [Model_of_timeouts_err c b m2 _ hm2 he]
    exact Option.some_ne_none _

theorem Model_congr_timeouts (c : Collaborators) (b : Backend)
    (ts1 ts2 : List (String × metav1.Duration))
    (h : ∀ model, modelTimeouts ts1 model = modelTimeouts ts2 model) :
    Backend.Model c { b with Spec := { b.Spec with Timeouts := ts1 } }
      = Backend.Model c { b with Spec := { b.Spec with Timeouts := ts2 } } := by
  unfold Backend.Model
  simp only [h]
  rfl

/-- Counterexample to C12: the two visiting orders of one Timeouts map with the keys
"client" and "frontend" make `Backend.Model` return different errors. -/
theorem Model_order_counterexample :
    twoUnknownBackend.Spec.Timeouts.Perm twoUnknownBackendSwapped.Spec.Timeouts ∧
      (Backend.Model stubCollaborators twoUnknownBackend).2 = some "timeout client unknown" ∧
      (Backend.Model stubCollaborators twoUnknownBackendSwapped).2
        = some "timeout frontend unknown" ∧
      Backend.Model stubCollaborators twoUnknownBackend
        ≠ Backend.Model stubCollaborators twoUnknownBackendSwapped := by
  refine ⟨List.Perm.swap _ _ _, by decide, by decide, by decide⟩

/-- C12 (amended): for every Backend whose Timeouts names are all known, any two orders in
which the entries of the Timeouts map are visited make `Backend.Model` return the same model
value and the same error; for every Backend, any two visiting orders agree on whether
`Backend.Model` fails. -/
theorem Model_timeouts_order (c : Collaborators) (b : Backend)
    (ts1 ts2 : List (String × metav1.Duration)) (hperm : ts1.Perm ts2)
    (hnd : (ts1.map Prod.fst).Nodup) :
    ((∀ kv ∈ ts1, kv.1 ∈ timeoutNames) →
        Backend.Model c { b with Spec := { b.Spec with Timeouts := ts1 } }
          = Backend.Model c { b with Spec := { b.Spec with Timeouts := ts2 } }) ∧
      ((Backend.Model c { b with Spec := { b.Spec with Timeouts := ts1 } }).2 = none ↔
        (Backend.Model c { b with Spec := { b.Spec with Timeouts := ts2 } }).2 = none) := by
  have hall : (∀ kv ∈ ts1, kv.1 ∈ timeoutNames) →
      Backend.Model c { b with Spec := { b.Spec with Timeouts := ts1 } }
        = Backend.Model c { b with Spec := { b.Spec with Timeouts := ts2 } } :=
    fun hkeys => Model_congr_timeouts c b ts1 ts2 (modelTimeouts_perm ts1 ts2 hperm hkeys hnd)
  refine ⟨hall, ?_⟩
  by_cases hkeys : ∀ kv ∈ ts1, kv.1 ∈ timeoutNames
  · rw [hall hkeys]
  · have hbad1 : ∃ kv ∈ ts1, kv.1 ∉ timeoutNames := by
      by_contra hc
      exact hkeys (fun kv hkv => by
        by_contra hk
        exact hc ⟨kv, hkv, hk⟩)
    have hbad2 : ∃ kv ∈ ts2, kv.1 ∉ timeoutNames := by
      obtain ⟨kv, hkv, hk⟩ := hbad1
      exact ⟨kv, hperm.mem_iff.mp hkv, hk⟩
    have e1 := Model_error_of_unknown c { b with Spec := { b.Spec with Timeouts := ts1 } } hbad1
    have e2 := Model_error_of_unknown c { b with Spec := { b.Spec with Timeouts := ts2 } } hbad2
    exact ⟨fun h => absurd h e1, fun h => absurd h e2⟩

theorem Model_timeouts_order_witness :
    Backend.Model stubCollaborators
        { timeoutsBackend with
          Spec := { timeoutsBackend.Spec with
            Timeouts := [("tunnel", 1 * metav1.Hour), ("server", 30 * metav1.Second)] } }
      = Backend.Model stubCollaborators
        { timeoutsBackend with
          Spec := { timeoutsBackend.Spec with
            Timeouts := [("server", 30 * metav1.Second), ("tunnel", 1 * metav1.Hour)] } } :=
  (Model_timeouts_order stubCollaborators timeoutsBackend _ _ (List.Perm.swap _ _ _)
    (by decide)).1 (by decide)


theorem modelErrorFiles_ErrorFiles (c : Collaborators) (efs : List ErrorFile)
    (model : models.Backend) :
    (modelErrorFiles c efs model).ErrorFiles
      = model.ErrorFiles
        ++ (efs.filter (fun ef => (c.ErrorFileModel ef).2.isNone)).map
            (fun ef => (c.ErrorFileModel ef).1) := by
  unfold modelErrorFiles
  induction efs generalizing model with
  | nil => simp only [List.foldl_nil, List.filter_nil, List.map_nil, List.append_nil]
  | cons ef rest ih =>
    rcases hm : c.ErrorFileModel ef with ⟨m, _ | e⟩
    · simp only [List.foldl_cons, hm, List.filter_cons, Option.isNone_none, if_true,
        List.map_cons]
      rw [ih]
      simp only [List.append_assoc, List.singleton_append]
    · simp only [List.foldl_cons, hm, List.filter_cons, Option.isNone_some,
        Bool.false_eq_true, if_false]
      rw [ih]

theorem setTimeout_ErrorFiles (model model2 : models.Backend) (name : String)
    (t : metav1.Duration) (h : setTimeout model name t = some model2) :
    model2.ErrorFiles = model.ErrorFiles := by
  unfold setTimeout at h
  split_ifs at h <;> cases h <;> rfl

theorem modelTimeouts_ErrorFiles (l : List (String × metav1.Duration))
    (model : models.Backend) : (modelTimeouts l model).1.ErrorFiles = model.ErrorFiles := by
  induction l generalizing model with
  | nil => rfl
  | cons kv rest ih =>
    obtain ⟨name, t⟩ := kv
    cases hs : setTimeout model name t with
    | none => simp only [modelTimeouts, hs]
    | some m2 =>
      simp only [modelTimeouts, hs]
      exact (ih m2).trans (setTimeout_ErrorFiles model m2 name t hs)

theorem modelCookie_ErrorFiles (b : Backend) (model m2 : models.Backend)
    (h : b.modelCookie model = .ok m2) : m2.ErrorFiles = model.ErrorFiles := by
  unfold Backend.modelCookie at h
  split at h
  · cases h; rfl
  · split at h
    · cases h
    · dsimp only at h
      split at h <;> cases h <;> rfl

theorem modelSettings_ErrorFiles (c : Collaborators) (b : Backend) :
    (b.modelSettings c).ErrorFiles = [] := by
  unfold Backend.modelSettings
  dsimp only
  repeat' split
  all_goals rfl

/-- C21: for every Backend on which `Backend.Model` succeeds, the error-file list of the
model is, in input order, exactly the fragments of those ErrorFiles of the spec whose
builder succeeded; its length never exceeds the number of ErrorFiles of the spec, and when
every builder succeeds the list has one fragment per ErrorFile. -/
theorem Model_error_files (c : Collaborators) (b : Backend) (hok : (b.Model c).2 = none) :
    (b.Model c).1.ErrorFiles
        = (b.Spec.ErrorFiles.filter (fun ef => (c.ErrorFileModel ef).2.isNone)).map
            (fun ef => (c.ErrorFileModel ef).1) ∧
      (b.Model c).1.ErrorFiles.length ≤ b.Spec.ErrorFiles.length ∧
      ((∀ ef ∈ b.Spec.ErrorFiles, (c.ErrorFileModel ef).2 = none) →
        (b.Model c).1.ErrorFiles = b.Spec.ErrorFiles.map (fun ef => (c.ErrorFileModel ef).1) ∧
          (b.Model c).1.ErrorFiles.length = b.Spec.ErrorFiles.length) := by
  obtain ⟨m2, hm2, _⟩ :=
    modelCookie_ok_of_modes b (b.modelSettings c) (Model_ok_cookie_mode c b hok)
  have hlist : (b.Model c).1.ErrorFiles
      = (b.Spec.ErrorFiles.filter (fun ef => (c.ErrorFileModel ef).2.isNone)).map
          (fun ef => (c.ErrorFileModel ef).1) := by
    cases ht : (modelTimeouts b.Spec.Timeouts m2).2 with
    | some e =>
      rw [Model_of_timeouts_err c b m2 e hm2 ht] at hok
      cases hok
    | none =>
      rw [Model_of_timeouts_ok c b m2 hm2 ht]
      dsimp only
      rw [modelErrorFiles_ErrorFiles, modelTimeouts_ErrorFiles,
        modelCookie_ErrorFiles b _ m2 hm2, modelSettings_ErrorFiles, List.nil_append]
  refine ⟨hlist, ?_, ?_⟩
  · rw [hlist, List.length_map]
    exact List.length_filter_le _ _
  · intro hall
    have hfilter : b.Spec.ErrorFiles.filter (fun ef => (c.ErrorFileModel ef).2.isNone)
        = b.Spec.ErrorFiles := by
      rw [List.filter_eq_self]
      intro ef hef
      rw [hall ef hef]
      rfl
    rw [hlist, hfilter]
    exact ⟨rfl, List.length_map _ _⟩

theorem Model_error_files_witness :
    (Backend.Model stubCollaborators errorFilesBackend).1.ErrorFiles
      = [{ Code := 403, File := "/usr/local/etc/haproxy/error-file-403.http" },
         { Code := 404, File := "/usr/local/etc/haproxy/error-file-404.http" }] :=
  (Model_error_files stubCollaborators errorFilesBackend (by decide)).1.trans (by decide)

end v1alpha1
